import Mathlib

/-!
Verification development for the solid-jsx-oxc element-tree lowering engine.

The definitions below are a shallow embedding of the Rust sources
`crates/common/src/check.rs` and `crates/dom/src/element.rs`.  Support code
that the Rust crate pulls in from files that are not part of the audited
sources (`crates/dom/src/ir.rs`, `crates/dom/src/transform.rs`,
`crates/common/src/constants.rs`, `crates/common/src/expression.rs`,
`crates/common/src/options.rs`) is modelled from the specification; every
such definition is marked `Modelled from the spec`.
-/

namespace Solid

/-! ### Basic string helpers (character-list based, so that they evaluate) -/

/-- Boolean test that `p` is a prefix of `s`, on the underlying character lists. -/
def strStarts (p s : String) : Bool := p.data.isPrefixOf s.data

/-- Boolean test that `p` is a suffix of `s`, on the underlying character lists. -/
def strEnds (p s : String) : Bool := p.data.isSuffixOf s.data

/-- Boolean test that the character `c` occurs in `s`. -/
def strHasChar (c : Char) (s : String) : Bool := s.data.contains c

/-- Infix search on character lists: does `n` occur contiguously inside `l`? -/
def infixCheck (n : List Char) : List Char → Bool
  | [] => n.isEmpty
  | c :: rest => n.isPrefixOf (c :: rest) || infixCheck n rest

/-- Boolean substring test: does `n` occur contiguously inside `s`? -/
def containsSub (n s : String) : Bool := infixCheck n.data s.data

/-- ASCII lower-casing of a string, character by character. -/
def lowerStr (s : String) : String := String.mk (s.data.map Char.toLower)

/-- Rendering of a Boolean the way Rust's `format!("{}", b)` renders it. -/
def boolStr (b : Bool) : String := if b then "true" else "false"

/-- Decimal digit characters for a single digit value. -/
def digitChar : Nat → Char
  | 0 => '0' | 1 => '1' | 2 => '2' | 3 => '3' | 4 => '4'
  | 5 => '5' | 6 => '6' | 7 => '7' | 8 => '8' | _ => '9'

/-- Fuel-driven decimal digit list (most significant digit first). -/
def natDigitsAux : Nat → Nat → List Char
  | 0, _ => []
  | fuel + 1, n =>
    if n < 10 then [digitChar n]
    else natDigitsAux fuel (n / 10) ++ [digitChar (n % 10)]

/-- Decimal rendering of a natural number. -/
def natRepr (n : Nat) : String := String.mk (natDigitsAux (n + 1) n)

/-! ### External expression helpers

`crates/common/src/expression.rs` is not part of the audited sources; the
specification (§6) describes its interface.  The next definitions are
modelled from that interface. -/

/-- Whitespace characters of JSX text. -/
def isJsxWS (c : Char) : Bool := c = ' ' || c = '\t' || c = '\n' || c = '\r'

/-- Collapse each run of whitespace characters to a single space; the flag
records whether the previous character belonged to a whitespace run. -/
def collapseWSGo : Bool → List Char → List Char
  | _, [] => []
  | inWS, c :: rest =>
    if isJsxWS c then
      (if inWS then [] else [' ']) ++ collapseWSGo true rest
    else c :: collapseWSGo false rest

/-- Collapse runs of whitespace characters to single spaces. -/
def collapseWS (l : List Char) : List Char := collapseWSGo false l

/-- Modelled from the spec: `trim_whitespace(s)` collapses JSX whitespace per
the framework's rules (`expression.rs` is not under the audited sources).  A
whitespace-only string collapses to the empty string. -/
def trim_whitespace (s : String) : String :=
  String.mk (((collapseWS s.data).dropWhile isJsxWS).reverse.dropWhile isJsxWS |>.reverse)

/-- Expansion of one character under HTML escaping. -/
def escapeChar (forAttr : Bool) (c : Char) : List Char :=
  if c = '&' then "&amp;".data
  else if c = '<' then "&lt;".data
  else if c = '>' then "&gt;".data
  else if c = '"' && forAttr then "&quot;".data
  else [c]

/-- Modelled from the spec: `escape_html(s, for_attribute)` HTML-escapes a
string (`expression.rs` is not under the audited sources). -/
def escape_html (s : String) (forAttr : Bool) : String :=
  String.mk (s.data.foldr (fun c acc => escapeChar forAttr c ++ acc) [])

/-- Modelled from the spec: `to_event_name(key)` strips the leading `on`
(or `on:`) and lowercases (`expression.rs` is not under the audited sources). -/
def to_event_name (key : String) : String :=
  lowerStr (if strStarts "on:" key then key.drop 3
            else if strStarts "on" key then key.drop 2
            else key)

/-! ### Expressions (the classifier's view of the oxc AST)

The variants mirror the `oxc_ast::ast::Expression` cases that
`is_dynamic` (in `check.rs`) and the style folder (in `element.rs`)
discriminate.  A numeric literal carries its exact value (as a rational,
standing for the `f64`) together with its printed form `raw` (standing for
`f64::to_string`); every case the source does not inspect further is
`otherExpr`, carrying its source text. -/

mutual
inductive Expression where
  | stringLit (value : String)
  | numericLit (value : ℚ) (raw : String)
  | booleanLit (b : Bool)
  | nullLit
  | templateLit (exprs : List Expression)
  | callExpr (callee : Expression) (args : List Expression)
  | staticMember (obj : Expression) (prop : String)
  | computedMember (obj : Expression) (prop : Expression)
  | identifier (name : String)
  | conditional (c t e : Expression)
  | logical (l r : Expression) (op : String)
  | binary (l r : Expression) (op : String)
  | unary (arg : Expression) (op : String)
  | arrowFn (body : Expression)
  | functionExpr (body : Expression)
  | objectExpr (props : List ObjectPropertyKind)
  | arrayExpr (elems : List ArrayElem)
  | otherExpr (src : String)

inductive ObjectPropertyKind where
  | objectProperty (key : PropertyKey) (value : Expression)
  | spreadProperty (arg : Expression)

inductive PropertyKey where
  | staticIdentifier (name : String)
  | stringLit (value : String)
  | keyExpr (e : Expression)

inductive ArrayElem where
  | spreadElem (arg : Expression)
  | elision
  | exprElem (e : Expression)
end

/-! `is_dynamic`, translated from `crates/common/src/check.rs` lines 65-134. -/

mutual
/-- Check if an expression is dynamic (needs effect wrapping); from `check.rs`. -/
def is_dynamic : Expression → Bool
  | .stringLit _ => false
  | .numericLit _ _ => false
  | .booleanLit _ => false
  | .nullLit => false
  | .templateLit es => !es.isEmpty
  | .callExpr _ _ => true
  | .staticMember _ _ => true
  | .computedMember _ _ => true
  | .identifier _ => true
  | .conditional _ _ _ => true
  | .logical _ _ _ => true
  | .binary l r _ => is_dynamic l || is_dynamic r
  | .unary a _ => is_dynamic a
  | .arrowFn _ => false
  | .functionExpr _ => false
  | .objectExpr props => is_dynamic_props props
  | .arrayExpr elems => is_dynamic_elems elems
  | .otherExpr _ => true

/-- Iteration of `is_dynamic` over object properties (`o.properties.iter().any`). -/
def is_dynamic_props : List ObjectPropertyKind → Bool
  | [] => false
  | .objectProperty _ v :: rest => is_dynamic v || is_dynamic_props rest
  | .spreadProperty a :: rest => is_dynamic a || is_dynamic_props rest

/-- Iteration of `is_dynamic` over array elements (`a.elements.iter().any`). -/
def is_dynamic_elems : List ArrayElem → Bool
  | [] => false
  | .spreadElem a :: rest => is_dynamic a || is_dynamic_elems rest
  | .elision :: rest => is_dynamic_elems rest
  | .exprElem e :: rest => is_dynamic e || is_dynamic_elems rest
end

/-! ### Expression serializer

Modelled from the spec: `expr_to_string(expr)` returns source text for an
expression (`expression.rs` is not under the audited sources). -/

mutual
/-- Modelled from the spec: source text of an expression. -/
def expr_to_string : Expression → String
  | .stringLit s => "\"" ++ s ++ "\""
  | .numericLit _ raw => raw
  | .booleanLit b => boolStr b
  | .nullLit => "null"
  | .templateLit es => "`" ++ exprs_to_string es ++ "`"
  | .callExpr f args => expr_to_string f ++ "(" ++ exprs_to_string args ++ ")"
  | .staticMember o p => expr_to_string o ++ "." ++ p
  | .computedMember o p => expr_to_string o ++ "[" ++ expr_to_string p ++ "]"
  | .identifier n => n
  | .conditional c t e =>
    expr_to_string c ++ " ? " ++ expr_to_string t ++ " : " ++ expr_to_string e
  | .logical l r op => expr_to_string l ++ " " ++ op ++ " " ++ expr_to_string r
  | .binary l r op => expr_to_string l ++ " " ++ op ++ " " ++ expr_to_string r
  | .unary a op => op ++ expr_to_string a
  | .arrowFn body => "() => " ++ expr_to_string body
  | .functionExpr body => "function () \x7b return " ++ expr_to_string body ++ " \x7d"
  | .objectExpr props => "\x7b" ++ props_to_string props ++ "\x7d"
  | .arrayExpr elems => "[" ++ elems_to_string elems ++ "]"
  | .otherExpr src => src

/-- Comma-joined serialization of an expression list. -/
def exprs_to_string : List Expression → String
  | [] => ""
  | [e] => expr_to_string e
  | e :: rest => expr_to_string e ++ ", " ++ exprs_to_string rest

/-- Serialization of object properties. -/
def props_to_string : List ObjectPropertyKind → String
  | [] => ""
  | [p] => prop_to_string p
  | p :: rest => prop_to_string p ++ ", " ++ props_to_string rest

/-- Serialization of a single object property. -/
def prop_to_string : ObjectPropertyKind → String
  | .objectProperty k v => key_to_string k ++ ": " ++ expr_to_string v
  | .spreadProperty a => "..." ++ expr_to_string a

/-- Serialization of an object property key. -/
def key_to_string : PropertyKey → String
  | .staticIdentifier n => n
  | .stringLit s => "\"" ++ s ++ "\""
  | .keyExpr e => "[" ++ expr_to_string e ++ "]"

/-- Serialization of array elements. -/
def elems_to_string : List ArrayElem → String
  | [] => ""
  | [e] => elem_to_string e
  | e :: rest => elem_to_string e ++ ", " ++ elems_to_string rest

/-- Serialization of a single array element. -/
def elem_to_string : ArrayElem → String
  | .spreadElem a => "..." ++ expr_to_string a
  | .elision => ""
  | .exprElem e => expr_to_string e
end

/-! ### JSX abstract syntax

The shapes mirror the `oxc_ast` types the sources discriminate:
element names, attribute names and values, attribute items, and children. -/

mutual
inductive JSXMemberExpression where
  | mk (object : JSXMemberObject) (property : String)

inductive JSXMemberObject where
  | identifierReference (name : String)
  | memberExpr (m : JSXMemberExpression)
  | thisExpression
end

inductive JSXElementName where
  | identifier (name : String)
  | identifierReference (name : String)
  | namespacedName (ns nm : String)
  | memberExpression (m : JSXMemberExpression)
  | thisExpression

inductive JSXAttributeName where
  | identifier (name : String)
  | namespacedName (ns nm : String)

inductive JSXAttributeValue where
  | stringLiteral (value : String)
  | expressionContainer (e : Option Expression)
  | otherValue

structure JSXAttribute where
  name : JSXAttributeName
  value : Option JSXAttributeValue

inductive JSXAttributeItem where
  | attributeItem (a : JSXAttribute)
  | spreadAttribute (argument : Expression)

mutual
inductive JSXElement where
  | mk (name : JSXElementName) (attributes : List JSXAttributeItem)
       (children : List JSXChild)

inductive JSXChild where
  | text (value : String)
  | element (e : JSXElement)
  | fragment (children : List JSXChild)
  | expressionContainer (e : Option Expression)
  | spreadChild
end

/-- Opening-element name of an element. -/
def JSXElement.openingName : JSXElement → JSXElementName
  | .mk n _ _ => n

/-- Attribute list of an element. -/
def JSXElement.attributes : JSXElement → List JSXAttributeItem
  | .mk _ a _ => a

/-- Child list of an element. -/
def JSXElement.children : JSXElement → List JSXChild
  | .mk _ _ c => c

/-! ### Tag classification, from `crates/common/src/check.rs` -/

/-- Check if a tag name represents a component (starts with uppercase or
contains a dot); from `check.rs` lines 13-19. -/
def is_component (tag : String) : Bool :=
  match tag.data with
  | [] => false
  | first_char :: _ => first_char.isUpper || tag.data.contains '.'

/-- Name of a JSX member expression (`Foo.Bar.Baz`); from `check.rs` lines 52-61. -/
def get_member_expression_name : JSXMemberExpression → String
  | .mk obj prop =>
    (match obj with
     | .identifierReference n => n
     | .memberExpr m => get_member_expression_name m
     | .thisExpression => "this") ++ "." ++ prop

/-- Name of a `JSXElementName`; from `check.rs` lines 37-49. -/
def get_jsx_element_name : JSXElementName → String
  | .identifier n => n
  | .identifierReference n => n
  | .namespacedName ns nm => ns ++ ":" ++ nm
  | .memberExpression m => get_member_expression_name m
  | .thisExpression => "this"

/-- Tag name of a JSX element; from `check.rs` lines 32-34. -/
def get_tag_name (e : JSXElement) : String :=
  get_jsx_element_name e.openingName

/-- Full name of a JSX attribute (`id`, or `on:click`); from `check.rs`
lines 181-188. -/
def get_attr_name : JSXAttributeName → String
  | .identifier n => n
  | .namespacedName ns nm => ns ++ ":" ++ nm

/-- Check if a JSX attribute name is namespaced; from `check.rs` lines 191-193. -/
def is_namespaced_attr : JSXAttributeName → Bool
  | .identifier _ => false
  | .namespacedName _ _ => true

/-! ### Constant tables

`crates/common/src/constants.rs` is not under the audited sources; the
spec describes the sets.  The unitless-property list, by contrast, lives in
`element.rs` itself and is copied verbatim below. -/

/-- Modelled from the spec: the closed set of SVG element names used by
`is_svg_element` (`constants.rs` is not under the audited sources). -/
def SVG_ELEMENTS : List String :=
  ["svg", "path", "circle", "ellipse", "line", "polygon", "polyline", "rect",
   "g", "defs", "use", "symbol", "marker", "mask", "pattern", "clipPath",
   "linearGradient", "radialGradient", "stop", "filter", "foreignObject",
   "image", "switch", "textPath", "tspan"]

/-- Check if a tag is an SVG element; from `check.rs` lines 27-29. -/
def is_svg_element (tag : String) : Bool := SVG_ELEMENTS.contains tag

/-- Modelled from the spec: the closed set of void elements, "including
`br`, `hr`, `img`, …" (`constants.rs` is not under the audited sources). -/
def VOID_ELEMENTS : List String :=
  ["area", "base", "br", "col", "embed", "hr", "img", "input", "link",
   "meta", "param", "source", "track", "wbr"]

/-- Modelled from the spec: the attribute alias map, "e.g.
`className → class`" (`constants.rs` is not under the audited sources). -/
def ALIASES : List (String × String) :=
  [("className", "class"), ("htmlFor", "for")]

/-- Modelled from the spec: the built-in set of delegable event names; the
spec's scenarios place `click` inside it and `mouseover` outside it
(`constants.rs` is not under the audited sources). -/
def DELEGATED_EVENTS : List String :=
  ["beforeinput", "click", "dblclick", "contextmenu", "focusin", "focusout",
   "input", "keydown", "keyup", "mousedown", "mousemove", "mouseout",
   "mouseup", "pointerdown", "pointermove", "pointerout", "pointerover",
   "pointerup", "touchend", "touchmove", "touchstart"]

/-- Properties that do not take a `px` suffix; copied from `element.rs`
lines 593-635 (`needs_px_suffix`). -/
def unitless : List String :=
  ["animation-iteration-count", "border-image-outset", "border-image-slice",
   "border-image-width", "box-flex", "box-flex-group", "box-ordinal-group",
   "column-count", "columns", "flex", "flex-grow", "flex-positive",
   "flex-shrink", "flex-negative", "flex-order", "grid-row", "grid-row-end",
   "grid-row-span", "grid-row-start", "grid-column", "grid-column-end",
   "grid-column-span", "grid-column-start", "font-weight", "line-clamp",
   "line-height", "opacity", "order", "orphans", "tab-size", "widows",
   "z-index", "zoom", "fill-opacity", "flood-opacity", "stop-opacity",
   "stroke-dasharray", "stroke-dashoffset", "stroke-miterlimit",
   "stroke-opacity", "stroke-width"]

/-- Check if a CSS property needs a `px` suffix for numeric values; from
`element.rs` lines 591-637. -/
def needs_px_suffix (prop : String) : Bool := !unitless.contains prop

/-! ### Style object folding, from `element.rs` lines 534-588 -/

/-- One step of `camel_to_kebab`: `i` is the character index. -/
def camel_to_kebab_go : Nat → List Char → List Char
  | _, [] => []
  | i, c :: rest =>
    if c.isUpper then
      (if i > 0 then ['-'] else []) ++ (c.toLower :: camel_to_kebab_go (i + 1) rest)
    else c :: camel_to_kebab_go (i + 1) rest

/-- Convert camelCase to kebab-case; from `element.rs` lines 575-588. -/
def camel_to_kebab (s : String) : String := String.mk (camel_to_kebab_go 0 s.data)

/-- Key of a style object property, or `none` when folding must abort;
from `element.rs` lines 541-548. -/
def styleKey : PropertyKey → Option String
  | .staticIdentifier id => some (camel_to_kebab id)
  | .stringLit lit => some lit
  | .keyExpr _ => none

/-- Value of a style object property given its folded key, or `none` when
folding must abort; from `element.rs` lines 551-563. -/
def styleValue (key : String) : Expression → Option String
  | .stringLit lit => some lit
  | .numericLit value raw =>
    some (if needs_px_suffix key && value ≠ 0 then raw ++ "px" else raw)
  | _ => none

/-- Folding loop of `object_to_style_string`; from `element.rs` lines 536-569. -/
def object_to_style_string_props : List ObjectPropertyKind → Option (List String)
  | [] => some []
  | .objectProperty k v :: rest =>
    match styleKey k with
    | none => none
    | some key =>
      match styleValue key v with
      | none => none
      | some value =>
        match object_to_style_string_props rest with
        | none => none
        | some tail => some ((key ++ ": " ++ value) :: tail)
  | .spreadProperty _ :: _ => none

/-- Try to convert a static object expression to a style string; from
`element.rs` lines 534-572 (the argument is the object's property list). -/
def object_to_style_string (props : List ObjectPropertyKind) : Option String :=
  (object_to_style_string_props props).map (String.intercalate "; ")

/-! ### IR and block context

`crates/dom/src/ir.rs` and `crates/dom/src/transform.rs` are not under the
audited sources; the structures below are modelled from spec §3. -/

/-- Modelled from the spec: a `(name, init_expression)` walker binding. -/
structure Declaration where
  name : String
  init : String
deriving DecidableEq

/-- Modelled from the spec: a runtime statement, carried as source text. -/
structure Expr where
  code : String
deriving DecidableEq

/-- Modelled from the spec: a reactive attribute binding. -/
structure DynamicBinding where
  elem : String
  key : String
  value : String
  is_svg : Bool
  is_ce : Bool
  tag_name : String

/-- Modelled from the spec: the return value of element lowering. -/
structure TransformResult where
  tag_name : Option String := none
  is_svg : Bool := false
  has_custom_element : Bool := false
  id : Option String := none
  template : String := ""
  template_with_closing_tags : String := ""
  declarations : List Declaration := []
  exprs : List Expr := []
  dynamics : List DynamicBinding := []

/-- Modelled from the spec: immutable per-recursion context. -/
structure TransformInfo where
  root_id : Option String := none
  path : List String := []
  top_level : Bool := true
  skip_id : Bool := false

/-- Modelled from the spec: the recognized transform options
(`options.rs` is not under the audited sources). -/
structure TransformOptions where
  delegate_events : Bool := true
  delegated_events : List String := []

/-- Modelled from the spec: the per-template mutable registry (UID counter,
helper imports, delegated events); state is threaded explicitly. -/
structure BlockContext where
  uid : Nat := 0
  helpers : List String := []
  delegates : List String := []

/-- Modelled from the spec: the name produced by the `i`-th call of the UID
generator for a prefix (`el$`, `el$2`, `el$3`, …). -/
def uidName (pre : String) (i : Nat) : String :=
  pre ++ (if i = 0 then "" else natRepr (i + 1))

/-- Modelled from the spec: draw a fresh name from the UID generator. -/
def generate_uid (pre : String) (ctx : BlockContext) : String × BlockContext :=
  (uidName pre ctx.uid, { ctx with uid := ctx.uid + 1 })

/-- Modelled from the spec: record a runtime helper import. -/
def register_helper (h : String) (ctx : BlockContext) : BlockContext :=
  if ctx.helpers.contains h then ctx else { ctx with helpers := ctx.helpers ++ [h] }

/-- Modelled from the spec: record an event for one-time delegation. -/
def register_delegate (ev : String) (ctx : BlockContext) : BlockContext :=
  if ctx.delegates.contains ev then ctx else { ctx with delegates := ctx.delegates ++ [ev] }

/-! ### Runtime-access analysis, from `element.rs` lines 106-172 -/

/-- Per-attribute part of `element_needs_runtime_access`; from `element.rs`
lines 109-139. -/
def attr_needs_runtime_access : JSXAttributeItem → Bool
  | .spreadAttribute _ => true
  | .attributeItem attr =>
    if is_namespaced_attr attr.name then true
    else
      let key := get_attr_name attr.name
      if key == "ref" || key == "innerHTML" || key == "textContent" || key == "innerText" then
        true
      else if strStarts "on" key && key.length > 2 then true
      else
        match attr.value with
        | some (.expressionContainer _) => true
        | _ => false

/-- Child part of `element_needs_runtime_access`; from `element.rs`
lines 144-165 (`children_need_runtime_access`). -/
def children_need_runtime_access : List JSXChild → Bool
  | [] => false
  | c :: rest =>
    match c with
    | .element child_elem =>
      if is_component (get_tag_name child_elem) then true
      else children_need_runtime_access rest
    | .expressionContainer _ => true
    | .fragment fcs =>
      if children_need_runtime_access fcs then true
      else children_need_runtime_access rest
    | _ => children_need_runtime_access rest

/-- Check if an element needs runtime access; from `element.rs` lines 106-172. -/
def element_needs_runtime_access (e : JSXElement) : Bool :=
  e.attributes.any attr_needs_runtime_access || children_need_runtime_access e.children

/-! ### Child-walk helpers, from `element.rs` lines 688-739 -/

/-- Walk path to the child at `node_index`; from `element.rs` lines 688-695
(`child_path`). -/
def child_path (base : List String) (node_index : Nat) : List String :=
  base ++ ["firstChild"] ++ List.replicate node_index "nextSibling"

/-- Chain of `.nextSibling` steps of the given length. -/
def nsChain : Nat → String
  | 0 => ""
  | k + 1 => nsChain k ++ ".nextSibling"

/-- Accessor text for the child at `node_index`; from `element.rs`
lines 697-703 (`child_accessor`). -/
def child_accessor (parent_id : String) (node_index : Nat) : String :=
  parent_id ++ ".firstChild" ++ nsChain node_index

/-- Loop of `is_single_dynamic_child`, with the running expression count and
other-content flag; from `element.rs` lines 706-739. -/
def single_go : List JSXChild → Nat → Bool → Bool
  | [], expr_count, other_content => expr_count == 1 && !other_content
  | c :: rest, expr_count, other_content =>
    match c with
    | .text t =>
      single_go rest expr_count
        (if !(trim_whitespace t).isEmpty then true else other_content)
    | .element _ => single_go rest expr_count true
    | .expressionContainer oe =>
      single_go rest (if oe.isSome then expr_count + 1 else expr_count) other_content
    | .fragment fcs =>
      if single_go fcs 0 false then single_go rest (expr_count + 1) other_content
      else single_go rest expr_count true
    | .spreadChild => single_go rest expr_count other_content

/-- Check if a child list is a single dynamic expression (no markers needed);
from `element.rs` lines 705-739. -/
def is_single_dynamic_child (children : List JSXChild) : Bool :=
  single_go children 0 false

/-! ### Attribute handlers, from `element.rs` lines 209-677 -/

/-- Transform a `ref` attribute; from `element.rs` lines 313-342. -/
def transform_ref (attr : JSXAttribute) (elem_id : String)
    (r : TransformResult) : TransformResult :=
  match attr.value with
  | some (.expressionContainer (some expr)) =>
    let ref_expr := expr_to_string expr
    if containsSub "=>" ref_expr || strStarts "function" ref_expr then
      { r with exprs := r.exprs ++ [⟨"(" ++ ref_expr ++ ")(" ++ elem_id ++ ")"⟩] }
    else
      { r with exprs := r.exprs ++
          [⟨"typeof " ++ ref_expr ++ " === \"function\" ? " ++ ref_expr ++ "(" ++
            elem_id ++ ") : " ++ ref_expr ++ " = " ++ elem_id⟩] }
  | _ => r

/-- Handler text of an event attribute; from `element.rs` lines 364-372. -/
def event_handler_string (attr : JSXAttribute) : String :=
  match attr.value with
  | some (.expressionContainer (some e)) => expr_to_string e
  | _ => "undefined"

/-- Transform an event handler attribute; from `element.rs` lines 344-399. -/
def transform_event (attr : JSXAttribute) (key : String) (elem_id : String)
    (r : TransformResult) (ctx : BlockContext) (options : TransformOptions) :
    TransformResult × BlockContext :=
  let is_capture := strEnds "Capture" key
  let base_key := if is_capture then key.dropRight 7 else key
  let event_name := to_event_name base_key
  let handler := event_handler_string attr
  let force_no_delegate := strStarts "on:" key
  let should_delegate := !force_no_delegate && !is_capture && options.delegate_events &&
    (DELEGATED_EVENTS.contains event_name ||
     options.delegated_events.contains event_name)
  if should_delegate then
    ({ r with exprs := r.exprs ++
        [⟨elem_id ++ ".$$" ++ event_name ++ " = " ++ handler⟩] },
     register_delegate event_name ctx)
  else
    ({ r with exprs := r.exprs ++
        [⟨"addEventListener(" ++ elem_id ++ ", \"" ++ event_name ++ "\", " ++
          handler ++ ", " ++ boolStr is_capture ++ ")"⟩] },
     register_helper "addEventListener" ctx)

/-- Transform a `use:` directive; from `element.rs` lines 401-425. -/
def transform_directive (attr : JSXAttribute) (key : String) (elem_id : String)
    (r : TransformResult) (ctx : BlockContext) : TransformResult × BlockContext :=
  let ctx1 := register_helper "use" ctx
  let directive_name := key.drop 4
  let value :=
    match attr.value with
    | some (.expressionContainer (some e)) => "() => " ++ expr_to_string e
    | _ => "undefined"
  ({ r with exprs := r.exprs ++
      [⟨"use(" ++ directive_name ++ ", " ++ elem_id ++ ", " ++ value ++ ")"⟩] },
   ctx1)

/-- Transform a `prop:` attribute; from `element.rs` lines 427-452. -/
def transform_prop (attr : JSXAttribute) (key : String) (elem_id : String)
    (r : TransformResult) (ctx : BlockContext) : TransformResult × BlockContext :=
  let prop_name := key.drop 5
  match attr.value with
  | some (.expressionContainer (some expr)) =>
    let expr_str := expr_to_string expr
    if is_dynamic expr then
      ({ r with exprs := r.exprs ++
          [⟨"effect(() => " ++ elem_id ++ "." ++ prop_name ++ " = " ++ expr_str ++ ")"⟩] },
       register_helper "effect" ctx)
    else
      ({ r with exprs := r.exprs ++
          [⟨elem_id ++ "." ++ prop_name ++ " = " ++ expr_str⟩] }, ctx)
  | _ => (r, ctx)

/-- Transform an `attr:` attribute; from `element.rs` lines 454-483. -/
def transform_attr (attr : JSXAttribute) (key : String) (elem_id : String)
    (r : TransformResult) (ctx : BlockContext) : TransformResult × BlockContext :=
  let attr_name := key.drop 5
  match attr.value with
  | some (.expressionContainer (some expr)) =>
    let expr_str := expr_to_string expr
    let ctx1 := register_helper "setAttribute" (register_helper "effect" ctx)
    ({ r with exprs := r.exprs ++
        [⟨"effect(() => " ++ elem_id ++ ".setAttribute(\"" ++ attr_name ++ "\", " ++
          expr_str ++ "))"⟩] }, ctx1)
  | some (.stringLiteral lit) =>
    ({ r with template := r.template ++ " " ++ attr_name ++ "=\"" ++
        escape_html lit true ++ "\"" }, ctx)
  | _ => (r, ctx)

/-- Runtime fallback path of the style transform; from `element.rs`
lines 514-526. -/
def transform_style_runtime (expr : Expression) (elem_id : Option String)
    (r : TransformResult) (ctx : BlockContext) :
    Except String (TransformResult × BlockContext) :=
  match elem_id with
  | none => .error "style helper requires an element id"
  | some eid =>
    let expr_str := expr_to_string expr
    let ctx1 := register_helper "style" ctx
    if is_dynamic expr then
      .ok ({ r with exprs := r.exprs ++
              [⟨"effect(() => style(" ++ eid ++ ", " ++ expr_str ++ "))"⟩] },
            register_helper "effect" ctx1)
    else
      .ok ({ r with exprs := r.exprs ++
              [⟨"style(" ++ eid ++ ", " ++ expr_str ++ ")"⟩] }, ctx1)

/-- Transform a `style` attribute; from `element.rs` lines 485-532. -/
def transform_style (attr : JSXAttribute) (elem_id : Option String)
    (r : TransformResult) (ctx : BlockContext) :
    Except String (TransformResult × BlockContext) :=
  match attr.value with
  | some (.stringLiteral lit) =>
    .ok ({ r with template := r.template ++ " style=\"" ++
            escape_html lit true ++ "\"" }, ctx)
  | some (.expressionContainer (some expr)) =>
    match expr with
    | .objectExpr props =>
      match object_to_style_string props with
      | some style_str =>
        .ok ({ r with template := r.template ++ " style=\"" ++ style_str ++ "\"" }, ctx)
      | none => transform_style_runtime expr elem_id r ctx
    | _ => transform_style_runtime expr elem_id r ctx
  | _ => .ok (r, ctx)

/-- Transform `innerHTML` / `textContent`; from `element.rs` lines 639-677. -/
def transform_inner_content (attr : JSXAttribute) (key : String)
    (elem_id : String) (r : TransformResult) (ctx : BlockContext) :
    TransformResult × BlockContext :=
  match attr.value with
  | some (.expressionContainer (some expr)) =>
    let expr_str := expr_to_string expr
    if is_dynamic expr then
      ({ r with exprs := r.exprs ++
          [⟨"effect(() => " ++ elem_id ++ "." ++ key ++ " = " ++ expr_str ++ ")"⟩] },
       register_helper "effect" ctx)
    else
      ({ r with exprs := r.exprs ++
          [⟨elem_id ++ "." ++ key ++ " = " ++ expr_str⟩] }, ctx)
  | some (.stringLiteral lit) =>
    if key == "innerHTML" then
      ({ r with exprs := r.exprs ++
          [⟨elem_id ++ ".innerHTML = \"" ++ escape_html lit false ++ "\""⟩] }, ctx)
    else
      -- textContent: the reference leaves both the template and the
      -- expression list untouched here
      (r, ctx)
  | _ => (r, ctx)

/-- Transform a single attribute; from `element.rs` lines 209-311. -/
def transform_attribute (attr : JSXAttribute) (elem_id : Option String)
    (r : TransformResult) (ctx : BlockContext) (options : TransformOptions) :
    Except String (TransformResult × BlockContext) :=
  let key := get_attr_name attr.name
  if key == "ref" then
    match elem_id with
    | none => .error "ref requires an element id"
    | some eid => .ok (transform_ref attr eid r, ctx)
  else if strStarts "on" key then
    match elem_id with
    | none => .error "event handlers require an element id"
    | some eid => .ok (transform_event attr key eid r ctx options)
  else if strStarts "use:" key then
    match elem_id with
    | none => .error "directives require an element id"
    | some eid => .ok (transform_directive attr key eid r ctx)
  else if strStarts "prop:" key then
    match elem_id with
    | none => .error "prop: requires an element id"
    | some eid => .ok (transform_prop attr key eid r ctx)
  else if strStarts "attr:" key then
    match elem_id with
    | none => .error "attr: requires an element id"
    | some eid => .ok (transform_attr attr key eid r ctx)
  else if key == "style" then
    transform_style attr elem_id r ctx
  else if key == "innerHTML" || key == "textContent" then
    match elem_id with
    | none => .error "inner content requires an element id"
    | some eid => .ok (transform_inner_content attr key eid r ctx)
  else
    match attr.value with
    | some (.stringLiteral lit) =>
      let attr_key := (ALIASES.lookup key).getD key
      let escaped := escape_html lit true
      .ok ({ r with template := r.template ++ " " ++ attr_key ++ "=\"" ++ escaped ++ "\"" },
           ctx)
    | some (.expressionContainer (some expr)) =>
      -- both branches of the reference's is_dynamic test push the same
      -- dynamic binding, so the split is immaterial here
      let expr_str := expr_to_string expr
      match elem_id with
      | none => .error "expression attributes require an element id"
      | some eid =>
        .ok ({ r with dynamics := r.dynamics ++
                [⟨eid, key, expr_str, r.is_svg, r.has_custom_element,
                  r.tag_name.getD ""⟩] }, ctx)
    | none =>
      .ok ({ r with template := r.template ++ " " ++ key }, ctx)
    | _ => .ok (r, ctx)

/-- Loop of `transform_attributes`; from `element.rs` lines 175-207. -/
def transform_attributes_go (element : JSXElement) (elem_id : Option String)
    (options : TransformOptions) :
    List JSXAttributeItem → TransformResult → BlockContext →
    Except String (TransformResult × BlockContext)
  | [], r, ctx => .ok (r, ctx)
  | .attributeItem attr :: rest, r, ctx =>
    match transform_attribute attr elem_id r ctx options with
    | .error m => .error m
    | .ok (r', ctx') => transform_attributes_go element elem_id options rest r' ctx'
  | .spreadAttribute arg :: rest, r, ctx =>
    match elem_id with
    | none => .error "Spread attributes require an element id"
    | some eid =>
      let ctx' := register_helper "spread" ctx
      let spread_expr := expr_to_string arg
      let r' := { r with exprs := r.exprs ++
          [⟨"spread(" ++ eid ++ ", " ++ spread_expr ++ ", " ++ boolStr r.is_svg ++
            ", " ++ boolStr (!element.children.isEmpty) ++ ")"⟩] }
      transform_attributes_go element elem_id options rest r' ctx'

/-- Transform element attributes; from `element.rs` lines 175-207. -/
def transform_attributes (element : JSXElement) (r : TransformResult)
    (ctx : BlockContext) (options : TransformOptions) :
    Except String (TransformResult × BlockContext) :=
  transform_attributes_go element r.id options element.attributes r ctx

/-! ### Element lowering and child iteration, from `element.rs` lines 18-104
and 679-917

The child-transformer callback `tc` stands for the component-lowering
collaborator (spec §6: `transform_child(child) -> Option<TransformResult>`).
The reference's `transform_children` merely computes the single-dynamic flag
and starts the child loop; its body is inlined at its single call site in
`transform_element` so that the recursion stays structural, and is also
provided separately below as `transform_children`. -/

/-- Merge of a native child's result into the running result; from
`element.rs` lines 828-841. -/
def merge_child (r cres : TransformResult) : TransformResult :=
  { r with
    template := r.template ++ cres.template,
    template_with_closing_tags := r.template_with_closing_tags ++
      (if !cres.template_with_closing_tags.isEmpty then cres.template_with_closing_tags
       else cres.template),
    declarations := r.declarations ++ cres.declarations,
    exprs := r.exprs ++ cres.exprs,
    dynamics := r.dynamics ++ cres.dynamics,
    has_custom_element := r.has_custom_element || cres.has_custom_element }

/-- Element-id issuing step of `transform_element`; from `element.rs`
lines 41-59: generate a fresh `el$` uid when `skip_id` is unset and the
element is top-level or needs runtime access, and bind it to the DOM walk
when a path exists. -/
def element_id_step (info : TransformInfo) (ctx : BlockContext)
    (needs_runtime_access : Bool) (r0 : TransformResult) :
    TransformResult × BlockContext :=
  if !info.skip_id && (info.top_level || needs_runtime_access) then
    match generate_uid "el$" ctx with
    | (elem_id, ctx1) =>
      let r1 := { r0 with id := some elem_id }
      let r2 :=
        if !info.path.isEmpty then
          match info.root_id with
          | some root_id =>
            { r1 with declarations := r1.declarations ++
                [⟨elem_id,
                  info.path.foldl (fun acc step => acc ++ "." ++ step) root_id⟩] }
          | none => r1
        else r1
      (r2, ctx1)
  else (r0, ctx)

mutual
/-- Transform a native HTML/SVG element; from `element.rs` lines 18-104. -/
def transform_element (tc : JSXChild → Option TransformResult)
    (options : TransformOptions) :
    JSXElement → String → TransformInfo → BlockContext →
    Except String (TransformResult × BlockContext)
  | .mk ename attrs children, tag_name, info, ctx =>
    let element := JSXElement.mk ename attrs children
    let is_svg := is_svg_element tag_name
    let is_void := VOID_ELEMENTS.contains tag_name
    let is_custom_element := strHasChar '-' tag_name
    let r0 : TransformResult :=
      { tag_name := some tag_name, is_svg := is_svg,
        has_custom_element := is_custom_element }
    let needs_runtime_access := element_needs_runtime_access element
    match element_id_step info ctx needs_runtime_access r0 with
    | (rid, ctx1) =>
      let r3 := { rid with
        template := "<" ++ tag_name,
        template_with_closing_tags := "<" ++ tag_name }
      match transform_attributes element r3 ctx1 options with
      | .error m => .error m
      | .ok (r4, ctx2) =>
        let r5 := { r4 with
          template := r4.template ++ ">",
          template_with_closing_tags := r4.template_with_closing_tags ++ ">" }
        if is_void then .ok (r5, ctx2)
        else
          let child_info : TransformInfo :=
            { info with
              root_id := r5.id.or info.root_id,
              path := if r5.id.isSome then [] else info.path,
              top_level := false }
          match transform_children_list tc options children r5 child_info ctx2 0 false
              (is_single_dynamic_child children) with
          | .error m => .error m
          | .ok (r6, _, _, ctx3) =>
            .ok ({ r6 with
                   template := r6.template ++ "</" ++ tag_name ++ ">",
                   template_with_closing_tags :=
                     r6.template_with_closing_tags ++ "</" ++ tag_name ++ ">" }, ctx3)

/-- Loop of the child iteration, with running `node_index`, `last_was_text`
and the single-dynamic decision; from `element.rs` lines 741-901. -/
def transform_children_list (tc : JSXChild → Option TransformResult)
    (options : TransformOptions) :
    List JSXChild → TransformResult → TransformInfo → BlockContext →
    Nat → Bool → Bool → Except String (TransformResult × Nat × Bool × BlockContext)
  | [], r, _, ctx, ni, lwt, _ => .ok (r, ni, lwt, ctx)
  | c :: rest, r, info, ctx, ni, lwt, single =>
    match c with
    | .text t =>
      let content := trim_whitespace t
      if content.isEmpty then
        transform_children_list tc options rest r info ctx ni lwt single
      else
        let escaped := escape_html content false
        let r' := { r with
          template := r.template ++ escaped,
          template_with_closing_tags := r.template_with_closing_tags ++ escaped }
        if !lwt then
          transform_children_list tc options rest r' info ctx (ni + 1) true single
        else
          transform_children_list tc options rest r' info ctx ni lwt single
    | .element child_elem =>
      let child_tag := get_tag_name child_elem
      if is_component child_tag then
        match r.id, tc (.element child_elem) with
        | some parent_id, some child_result =>
          if child_result.exprs.isEmpty then
            transform_children_list tc options rest r info ctx ni false single
          else
            let ctx1 := register_helper "insert" ctx
            let code0 := (child_result.exprs.headD ⟨""⟩).code
            if single then
              let r' := { r with exprs := r.exprs ++
                  [⟨"insert(" ++ parent_id ++ ", " ++ code0 ++ ")"⟩] }
              transform_children_list tc options rest r' info ctx1 ni false single
            else
              match generate_uid "el$" ctx1 with
              | (marker_id, ctx2) =>
                let r' := { r with
                  template := r.template ++ "<!>",
                  template_with_closing_tags :=
                    r.template_with_closing_tags ++ "<!>",
                  declarations := r.declarations ++
                    [⟨marker_id, child_accessor parent_id ni⟩],
                  exprs := r.exprs ++
                    [⟨"insert(" ++ parent_id ++ ", " ++ code0 ++ ", " ++
                      marker_id ++ ")"⟩] }
                transform_children_list tc options rest r' info ctx2 (ni + 1) false single
        | _, _ =>
          transform_children_list tc options rest r info ctx ni false single
      else
        let child_info : TransformInfo :=
          { info with
            top_level := false,
            path := child_path info.path ni,
            root_id := info.root_id }
        match transform_element tc options child_elem child_tag child_info ctx with
        | .error m => .error m
        | .ok (cres, ctx1) =>
          transform_children_list tc options rest (merge_child r cres) info ctx1
            (ni + 1) false single
    | .expressionContainer oe =>
      match r.id, oe with
      | some parent_id, some expr =>
        let ctx1 := register_helper "insert" ctx
        let expr_str := expr_to_string expr
        let insert_value := if is_dynamic expr then "() => " ++ expr_str else expr_str
        if single then
          let r' := { r with exprs := r.exprs ++
              [⟨"insert(" ++ parent_id ++ ", " ++ insert_value ++ ")"⟩] }
          transform_children_list tc options rest r' info ctx1 ni false single
        else
          match generate_uid "el$" ctx1 with
          | (marker_id, ctx2) =>
            let r' := { r with
              template := r.template ++ "<!>",
              template_with_closing_tags := r.template_with_closing_tags ++ "<!>",
              declarations := r.declarations ++
                [⟨marker_id, child_accessor parent_id ni⟩],
              exprs := r.exprs ++
                [⟨"insert(" ++ parent_id ++ ", " ++ insert_value ++ ", " ++
                  marker_id ++ ")"⟩] }
            transform_children_list tc options rest r' info ctx2 (ni + 1) false single
      | _, _ =>
        transform_children_list tc options rest r info ctx ni lwt single
    | .fragment fcs =>
      match transform_children_list tc options fcs r info ctx ni lwt single with
      | .error m => .error m
      | .ok (r', ni', lwt', ctx') =>
        transform_children_list tc options rest r' info ctx' ni' lwt' single
    | .spreadChild =>
      transform_children_list tc options rest r info ctx ni lwt single
end

/-- Transform element children; from `element.rs` lines 679-917.  The body
is the one inlined in `transform_element`. -/
def transform_children (tc : JSXChild → Option TransformResult)
    (options : TransformOptions) (element : JSXElement) (r : TransformResult)
    (info : TransformInfo) (ctx : BlockContext) :
    Except String (TransformResult × Nat × Bool × BlockContext) :=
  transform_children_list tc options element.children r info ctx 0 false
    (is_single_dynamic_child element.children)

/-! ### Claim-side predicates for the classifier (C7)

The first family is the claim's notion verbatim: an expression "contains a
call, identifier, or member-access subexpression, except inside nested
function or arrow literals whose value is the function object itself".
Computed object keys are expressions, so they count as subexpressions. -/

mutual
/-- Presence of a call / identifier / member access outside function literals. -/
def fof_expr : Expression → Bool
  | .stringLit _ => false
  | .numericLit _ _ => false
  | .booleanLit _ => false
  | .nullLit => false
  | .templateLit es => fof_list es
  | .callExpr _ _ => true
  | .staticMember _ _ => true
  | .computedMember _ _ => true
  | .identifier _ => true
  | .conditional c t e => fof_expr c || fof_expr t || fof_expr e
  | .logical l r _ => fof_expr l || fof_expr r
  | .binary l r _ => fof_expr l || fof_expr r
  | .unary a _ => fof_expr a
  | .arrowFn _ => false
  | .functionExpr _ => false
  | .objectExpr props => fof_props props
  | .arrayExpr elems => fof_elems elems
  | .otherExpr _ => false

/-- The predicate over an expression list. -/
def fof_list : List Expression → Bool
  | [] => false
  | e :: rest => fof_expr e || fof_list rest

/-- The predicate over object properties: keys and values are subexpressions. -/
def fof_props : List ObjectPropertyKind → Bool
  | [] => false
  | .objectProperty k v :: rest => fof_key k || fof_expr v || fof_props rest
  | .spreadProperty a :: rest => fof_expr a || fof_props rest

/-- The predicate over a property key; a non-computed key is a plain name,
not an identifier expression. -/
def fof_key : PropertyKey → Bool
  | .staticIdentifier _ => false
  | .stringLit _ => false
  | .keyExpr e => fof_expr e

/-- The predicate over array elements. -/
def fof_elems : List ArrayElem → Bool
  | [] => false
  | .spreadElem a :: rest => fof_expr a || fof_elems rest
  | .elision :: rest => fof_elems rest
  | .exprElem e :: rest => fof_expr e || fof_elems rest
end

/-! The second family additionally exempts computed object property keys,
which `is_dynamic` never inspects. -/

mutual
/-- Like `fof_expr`, but computed object keys are also exempt. -/
def fofk_expr : Expression → Bool
  | .stringLit _ => false
  | .numericLit _ _ => false
  | .booleanLit _ => false
  | .nullLit => false
  | .templateLit es => fofk_list es
  | .callExpr _ _ => true
  | .staticMember _ _ => true
  | .computedMember _ _ => true
  | .identifier _ => true
  | .conditional c t e => fofk_expr c || fofk_expr t || fofk_expr e
  | .logical l r _ => fofk_expr l || fofk_expr r
  | .binary l r _ => fofk_expr l || fofk_expr r
  | .unary a _ => fofk_expr a
  | .arrowFn _ => false
  | .functionExpr _ => false
  | .objectExpr props => fofk_props props
  | .arrayExpr elems => fofk_elems elems
  | .otherExpr _ => false

/-- Key-exempt predicate over an expression list. -/
def fofk_list : List Expression → Bool
  | [] => false
  | e :: rest => fofk_expr e || fofk_list rest

/-- Key-exempt predicate over object properties (values and spreads only). -/
def fofk_props : List ObjectPropertyKind → Bool
  | [] => false
  | .objectProperty _ v :: rest => fofk_expr v || fofk_props rest
  | .spreadProperty a :: rest => fofk_expr a || fofk_props rest

/-- Key-exempt predicate over array elements. -/
def fofk_elems : List ArrayElem → Bool
  | [] => false
  | .spreadElem a :: rest => fofk_expr a || fofk_elems rest
  | .elision :: rest => fofk_elems rest
  | .exprElem e :: rest => fofk_expr e || fofk_elems rest
end

/-! ### Claim-side style rendering (C8) -/

/-- Shape guard of the claim: keys are static identifiers or string
literals, values are string or numeric literals. -/
def styleShapeOK : List ObjectPropertyKind → Bool
  | [] => true
  | .objectProperty k v :: rest =>
    (match k with
     | .staticIdentifier _ => true
     | .stringLit _ => true
     | .keyExpr _ => false) &&
    (match v with
     | .stringLit _ => true
     | .numericLit _ _ => true
     | _ => false) &&
    styleShapeOK rest
  | .spreadProperty _ :: _ => false

/-- The claim's rendering of one style pair: camelCase identifier keys are
kebab-cased, string keys are verbatim; numeric values take a `px` suffix
unless the property is unitless or the value is exactly zero. -/
def specStylePair : ObjectPropertyKind → String
  | .objectProperty k v =>
    let key :=
      match k with
      | .staticIdentifier n => camel_to_kebab n
      | .stringLit s => s
      | .keyExpr _ => ""
    let value :=
      match v with
      | .stringLit s => s
      | .numericLit num raw =>
        if unitless.contains key || num = 0 then raw else raw ++ "px"
      | _ => ""
    key ++ ": " ++ value
  | .spreadProperty _ => ""

/-- The claim's rendering of the whole object, pairs in source order joined
by `"; "`. -/
def specStyleString (props : List ObjectPropertyKind) : String :=
  String.intercalate "; " (props.map specStylePair)

/-! ### Claim-side child flattening (C3, C6) -/

/-- Flatten fragments to any depth, preserving order. -/
def flattenChildren : List JSXChild → List JSXChild
  | [] => []
  | .fragment fcs :: rest => flattenChildren fcs ++ flattenChildren rest
  | .text t :: rest => .text t :: flattenChildren rest
  | .element e :: rest => .element e :: flattenChildren rest
  | .expressionContainer oe :: rest => .expressionContainer oe :: flattenChildren rest
  | .spreadChild :: rest => .spreadChild :: flattenChildren rest

/-- Keep a child unless it is whitespace-only text. -/
def significantChild : JSXChild → Bool
  | .text t => !(trim_whitespace t).isEmpty
  | _ => true

/-- The claim's reading of `is_single_dynamic_child`: after flattening
fragments and discarding whitespace-only text, exactly one expression
container remains and nothing else. -/
def specSingleDynamic (cs : List JSXChild) : Bool :=
  match (flattenChildren cs).filter significantChild with
  | [.expressionContainer _] => true
  | _ => false

/-! The exact behaviour of the reference (used for the amended C3): a
fragment counts as one expression exactly when it is itself single-dynamic,
and as other content otherwise. -/

mutual
/-- Number of children that contribute one expression slot. -/
def countUnits : List JSXChild → Nat
  | [] => 0
  | c :: rest => (if dynUnit c then 1 else 0) + countUnits rest
termination_by cs => (sizeOf cs, 0)

/-- A child contributing one expression slot: a non-empty expression
container, or a fragment that is itself single-dynamic. -/
def dynUnit : JSXChild → Bool
  | .expressionContainer oe => oe.isSome
  | .fragment fcs => amendedSingle fcs
  | _ => false
termination_by c => (sizeOf c, 1)

/-- Any child that is other content: non-whitespace text, an element, or a
fragment that is not single-dynamic. -/
def anyHard : List JSXChild → Bool
  | [] => false
  | c :: rest => hardContent c || anyHard rest
termination_by cs => (sizeOf cs, 0)

/-- One child's other-content test. -/
def hardContent : JSXChild → Bool
  | .text t => !(trim_whitespace t).isEmpty
  | .element _ => true
  | .expressionContainer _ => false
  | .fragment fcs => !amendedSingle fcs
  | .spreadChild => false
termination_by c => (sizeOf c, 1)

/-- The amended single-dynamic predicate. -/
def amendedSingle (cs : List JSXChild) : Bool :=
  countUnits cs == 1 && !anyHard cs
termination_by (sizeOf cs, 2)
end

/-! ### Claim-side runtime-access predicate (C6) -/

/-- The claim's per-attribute condition: spread, namespaced, `ref`,
inner-content, an `on…` event, or an expression container. -/
def specAttrAccess : JSXAttributeItem → Bool
  | .spreadAttribute _ => true
  | .attributeItem attr =>
    is_namespaced_attr attr.name ||
    (let key := get_attr_name attr.name
     key == "ref" || key == "innerHTML" || key == "textContent" || key == "innerText" ||
     (strStarts "on" key && key.length > 2) ||
     (match attr.value with
      | some (.expressionContainer _) => true
      | _ => false))

/-- The claim's per-descendant condition: a component or an expression
container. -/
def specChildAccess : JSXChild → Bool
  | .expressionContainer _ => true
  | .element ce => is_component (get_tag_name ce)
  | _ => false

/-- The claim's runtime-access predicate: some attribute passes
`specAttrAccess`, or some descendant reached only through fragments is a
component or an expression container. -/
def needsAccessSpec (e : JSXElement) : Bool :=
  e.attributes.any specAttrAccess ||
  (flattenChildren e.children).any specChildAccess

/-! ### Concrete inputs used by counterexamples and witnesses -/

/-- Object literal `{[f()]: 0}`: static value, call inside a computed key. -/
def c7cex : Expression :=
  .objectExpr [.objectProperty (.keyExpr (.callExpr (.identifier "f") []))
    (.numericLit 0 "0")]

/-- Style object `{marginTop: 4, opacity: 0.5, zIndex: 0}`. -/
def c8obj : List ObjectPropertyKind :=
  [.objectProperty (.staticIdentifier "marginTop") (.numericLit 4 "4"),
   .objectProperty (.staticIdentifier "opacity") (.numericLit (1/2) "0.5"),
   .objectProperty (.staticIdentifier "zIndex") (.numericLit 0 "0")]

/-- Child list `{x}<>  </>`: one expression container, then a fragment
holding only whitespace text. -/
def c3cex : List JSXChild :=
  [.expressionContainer (some (.identifier "x")), .fragment [.text "  "]]

/-- Attribute `ref={functionRef}`: a plain identifier whose name starts
with the word `function`. -/
def c9attr : JSXAttribute :=
  ⟨.identifier "ref", some (.expressionContainer (some (.identifier "functionRef")))⟩

/-- Element `<div class="x" />`. -/
def c1elem : JSXElement :=
  .mk (.identifier "div")
    [.attributeItem ⟨.identifier "class", some (.stringLiteral "x")⟩] []

/-- A child transformer that lowers no component (the engine under test
never relies on it for these inputs). -/
def tcNone : JSXChild → Option TransformResult := fun _ => none

/-- Attribute `onClick={h}`. -/
def c4attr : JSXAttribute :=
  ⟨.identifier "onClick", some (.expressionContainer (some (.identifier "h")))⟩

/-- Result of lowering `<div class="x" />` at top level. -/
def c6out : TransformResult × BlockContext :=
  match transform_element tcNone {} c1elem "div" {} {} with
  | .ok p => p
  | .error _ => ({}, {})

/-- Child `{x}`. -/
def c10child : JSXChild := .expressionContainer (some (.identifier "x"))

/-! ### Claim-side marker measures (C5)

The claim counts `<!>` occurrences in `template` against the declarations
whose init is a pure `firstChild`/`nextSibling` walk and that are consumed
by a three-argument `insert(...)`. -/

/-- Does this character list begin with the marker comment text? -/
def mStart : List Char → Bool
  | c :: d :: e :: _ => decide (c = '<') && decide (d = '!') && decide (e = '>')
  | _ => false

/-- Number of positions at which the marker comment occurs. -/
def countM : List Char → Nat
  | [] => 0
  | c :: rest => (if mStart (c :: rest) then 1 else 0) + countM rest

/-- Split a character list at every dot. -/
def splitDots : List Char → List (List Char)
  | [] => [[]]
  | c :: rest =>
    if c = '.' then [] :: splitDots rest
    else
      match splitDots rest with
      | [] => [[c]]
      | g :: gs => (c :: g) :: gs

/-- Claim-side: the init expression is built only of `firstChild` /
`nextSibling` steps from some root: a root name followed by at least one
such step and nothing else. -/
def isWalkInit (init : String) : Bool :=
  match splitDots init.data with
  | [] => false
  | _ :: steps =>
    !steps.isEmpty &&
    steps.all (fun s => decide (s = "firstChild".data) || decide (s = "nextSibling".data))

/-- Number of occurrences of a character in a string. -/
def charCount (c : Char) (s : String) : Nat := s.data.count c

/-- Claim-side: `code` is an `insert(...)` call of at least three arguments
whose last argument is `name` (at least two separating commas). -/
def isInsert3With (code name : String) : Bool :=
  strStarts "insert(" code && strEnds (", " ++ name ++ ")") code &&
  decide (2 ≤ charCount ',' code)

/-- Claim-side: walk declarations of `ds` consumed by a three-argument
insert of `es`. -/
def pairedDeclsL (ds : List Declaration) (es : List Expr) : Nat :=
  (ds.filter (fun d => isWalkInit d.init &&
      es.any (fun e => isInsert3With e.code d.name))).length

/-- Claim-side: insert expressions of `es` that consume a walk declaration
of `ds`. -/
def pairedInsertsL (es : List Expr) (ds : List Declaration) : Nat :=
  (es.filter (fun e => ds.any (fun d => isWalkInit d.init &&
      isInsert3With e.code d.name))).length

/-- Walk declarations of a result consumed by a three-argument insert. -/
def pairedDecls (r : TransformResult) : Nat := pairedDeclsL r.declarations r.exprs

/-- Insert expressions of a result that consume a walk declaration. -/
def pairedInserts (r : TransformResult) : Nat := pairedInsertsL r.exprs r.declarations

/-! ### Well-formedness for the marker invariant (C5)

The correction: text the engine inlines verbatim (tag names, attribute
names, folded style strings) must not fabricate marker characters, and
serialized child expressions must not contain `$` (the uid alphabet), lest
an insert tail be forged. -/

/-- No angle-bracket character. -/
def cleanStr (s : String) : Bool :=
  s.data.all (fun c => decide (c ≠ '<') && decide (c ≠ '>'))

/-- A well-formed tag name: nonempty and free of `<`, `!`, `>`. -/
def cleanTag (t : String) : Bool :=
  !t.data.isEmpty &&
  t.data.all (fun c => decide (c ≠ '<') && decide (c ≠ '!') && decide (c ≠ '>'))

/-- Well-formedness of one attribute for the marker invariant: the
attribute name is free of angle brackets, and a foldable style object
folds to an angle-bracket-free string. -/
def cleanAttrItem : JSXAttributeItem → Bool
  | .spreadAttribute _ => true
  | .attributeItem attr =>
    cleanStr (get_attr_name attr.name) &&
    (match attr.value with
     | some (.expressionContainer (some (.objectExpr props))) =>
       (match object_to_style_string props with
        | some s => cleanStr s
        | none => true)
     | _ => true)

mutual
/-- Well-formedness of an element tree for the marker invariant (C5). -/
def cleanElement : JSXElement → Bool
  | .mk _ attrs children => attrs.all cleanAttrItem && cleanChildren children

/-- Well-formedness of a child list for the marker invariant. -/
def cleanChildren : List JSXChild → Bool
  | [] => true
  | c :: rest => cleanChild c && cleanChildren rest

/-- Well-formedness of one child for the marker invariant: nested tags are
well formed and serialized expressions carry no `$`. -/
def cleanChild : JSXChild → Bool
  | .text _ => true
  | .element ce => cleanTag (get_tag_name ce) && cleanElement ce
  | .expressionContainer none => true
  | .expressionContainer (some e) => !strHasChar '$' (expr_to_string e)
  | .fragment fcs => cleanChildren fcs
  | .spreadChild => true
end

/-- The component collaborator's head codes carry no `$`. -/
def tcClean (tc : JSXChild → Option TransformResult) : Prop :=
  ∀ c res, tc c = some res →
    strHasChar '$' (Expr.code (res.exprs.headD ⟨""⟩)) = false

/-- The marker invariant carried through the child iteration: markers in
the template are exactly paired with consumed walk declarations, walker
names and consumed insert tails draw from the uid window `[n0, n1)`. -/
structure MInv (r : TransformResult) (n0 n1 : Nat) : Prop where
  count_eq : countM r.template.data = pairedDecls r
  inserts_eq : pairedInserts r = pairedDecls r
  decl_names : ∀ d ∈ r.declarations, ∃ i, n0 ≤ i ∧ i < n1 ∧ d.name = uidName "el$" i
  expr_window : ∀ e ∈ r.exprs, ∀ j, isInsert3With e.code (uidName "el$" j) = true →
    n0 ≤ j ∧ j < n1

/-- Shape of an attribute-phase step: clean template growth, unchanged
declarations, and non-insert expression growth. -/
def AttrStep (r r2 : TransformResult) : Prop :=
  (∃ s, r2.template = r.template ++ s ∧ ∀ c ∈ s.data, c ≠ '<' ∧ c ≠ '>') ∧
  r2.declarations = r.declarations ∧
  (∃ es, r2.exprs = r.exprs ++ es ∧ ∀ e ∈ es, strStarts "insert(" e.code = false)

/-- Element `<div style={{a: "<!>"}} />`: a static style object whose value
carries the marker text verbatim. -/
def c5elem : JSXElement :=
  .mk (.identifier "div")
    [.attributeItem ⟨.identifier "style",
      some (.expressionContainer (some (.objectExpr
        [.objectProperty (.staticIdentifier "a") (.stringLit "<!>")])))⟩] []

/-- Result of lowering `<div style={{a: "<!>"}} />` at top level. -/
def c5out : TransformResult × BlockContext :=
  match transform_element tcNone {} c5elem "div" {} {} with
  | .ok p => p
  | .error _ => ({}, {})

/-- Element `<div><span>hi</span></div>`: a nested native child. -/
def c5wit : JSXElement :=
  .mk (.identifier "div") []
    [.element (.mk (.identifier "span") [] [.text "hi"])]

/-- Result of lowering `<div><span>hi</span></div>` at top level. -/
def c5witOut : TransformResult × BlockContext :=
  match transform_element tcNone {} c5wit "div" {} {} with
  | .ok p => p
  | .error _ => ({}, {})

/-! ## Theorems -/

/-! ### C7: classifier conservatism -/

mutual
/-- Statically-classified expressions contain no call, identifier or member
access outside function literals and computed keys. -/
theorem static_no_fofk_expr : (e : Expression) → is_dynamic e = false → fofk_expr e = false
  | .stringLit _, _ => rfl
  | .numericLit _ _, _ => rfl
  | .booleanLit _, _ => rfl
  | .nullLit, _ => rfl
  | .templateLit [], _ => rfl
  | .templateLit (_ :: _), h => nomatch h
  | .callExpr _ _, h => nomatch h
  | .staticMember _ _, h => nomatch h
  | .computedMember _ _, h => nomatch h
  | .identifier _, h => nomatch h
  | .conditional _ _ _, h => nomatch h
  | .logical _ _ _, h => nomatch h
  | .binary l r _, h => by
    simp only [is_dynamic, Bool.or_eq_false_iff] at h
    simp only [fofk_expr, Bool.or_eq_false_iff]
    exact ⟨static_no_fofk_expr l h.1, static_no_fofk_expr r h.2⟩
  | .unary a _, h => by
    simp only [is_dynamic] at h
    simp only [fofk_expr]
    exact static_no_fofk_expr a h
  | .arrowFn _, _ => rfl
  | .functionExpr _, _ => rfl
  | .objectExpr props, h => static_no_fofk_props props h
  | .arrayExpr elems, h => static_no_fofk_elems elems h
  | .otherExpr _, h => nomatch h

/-- Property-list part of `static_no_fofk_expr`. -/
theorem static_no_fofk_props :
    (ps : List ObjectPropertyKind) → is_dynamic_props ps = false → fofk_props ps = false
  | [], _ => rfl
  | .objectProperty _ v :: rest, h => by
    simp only [is_dynamic_props, Bool.or_eq_false_iff] at h
    simp only [fofk_props, Bool.or_eq_false_iff]
    exact ⟨static_no_fofk_expr v h.1, static_no_fofk_props rest h.2⟩
  | .spreadProperty a :: rest, h => by
    simp only [is_dynamic_props, Bool.or_eq_false_iff] at h
    simp only [fofk_props, Bool.or_eq_false_iff]
    exact ⟨static_no_fofk_expr a h.1, static_no_fofk_props rest h.2⟩

/-- Array-element part of `static_no_fofk_expr`. -/
theorem static_no_fofk_elems :
    (es : List ArrayElem) → is_dynamic_elems es = false → fofk_elems es = false
  | [], _ => rfl
  | .spreadElem a :: rest, h => by
    simp only [is_dynamic_elems, Bool.or_eq_false_iff] at h
    simp only [fofk_elems, Bool.or_eq_false_iff]
    exact ⟨static_no_fofk_expr a h.1, static_no_fofk_elems rest h.2⟩
  | .elision :: rest, h => by
    simp only [is_dynamic_elems] at h
    simp only [fofk_elems]
    exact static_no_fofk_elems rest h
  | .exprElem e :: rest, h => by
    simp only [is_dynamic_elems, Bool.or_eq_false_iff] at h
    simp only [fofk_elems, Bool.or_eq_false_iff]
    exact ⟨static_no_fofk_expr e h.1, static_no_fofk_elems rest h.2⟩
end

/-- C7 counterexample: the object `{[f()]: 0}` is classified static by
`is_dynamic`, yet it contains a call expression outside any function
literal (inside a computed key), so the claim as stated fails. -/
theorem c7_counterexample : is_dynamic c7cex = false ∧ fof_expr c7cex = true :=
  ⟨rfl, rfl⟩

/-- C7 (amended): if `is_dynamic e` is false, then `e` contains no call,
identifier, or member-access subexpression, except inside nested function
or arrow literals and except inside computed object property keys. -/
theorem c7_classifier_conservative (e : Expression) (h : is_dynamic e = false) :
    fofk_expr e = false :=
  static_no_fofk_expr e h

/-- Witness for `c7_classifier_conservative` at the arrow literal `() => x`. -/
theorem c7_classifier_conservative_witness :
    is_dynamic (.arrowFn (.identifier "x")) = false ∧
    fofk_expr (.arrowFn (.identifier "x")) = false :=
  ⟨rfl, c7_classifier_conservative (.arrowFn (.identifier "x")) rfl⟩

/-! ### C8: style object folding -/

/-- Folding loop agreement with the claim's rendering: under the claim's
shape guard every property folds, to exactly the claim's pair. -/
theorem style_props_fold :
    (props : List ObjectPropertyKind) → styleShapeOK props = true →
    object_to_style_string_props props = some (props.map specStylePair)
  | [], _ => rfl
  | .objectProperty k v :: rest, h => by
    simp only [styleShapeOK, Bool.and_eq_true] at h
    obtain ⟨⟨hk, hv⟩, hrest⟩ := h
    have ih := style_props_fold rest hrest
    cases k with
    | staticIdentifier n =>
      cases v with
      | stringLit s => simp [object_to_style_string_props, styleKey, styleValue, ih,
          specStylePair]
      | numericLit num raw =>
        simp only [object_to_style_string_props, styleKey, styleValue, ih,
          List.map_cons, specStylePair, needs_px_suffix]
        by_cases hz : num = 0 <;>
          by_cases hu : unitless.contains (camel_to_kebab n) = true <;>
            simp [hz, hu]
      | _ => simp at hv
    | stringLit sk =>
      cases v with
      | stringLit s => simp [object_to_style_string_props, styleKey, styleValue, ih,
          specStylePair]
      | numericLit num raw =>
        simp only [object_to_style_string_props, styleKey, styleValue, ih,
          List.map_cons, specStylePair, needs_px_suffix]
        by_cases hz : num = 0 <;>
          by_cases hu : unitless.contains sk = true <;>
            simp [hz, hu]
      | _ => simp at hv
    | keyExpr _ => simp at hk
  | .spreadProperty _ :: _, h => by simp [styleShapeOK] at h

/-- C8: for an object literal whose keys are static identifiers or string
literals and whose values are string or numeric literals, folding succeeds
and produces exactly the claim's rendering: camelCase identifier keys
kebab-cased, numeric values suffixed with `px` unless the property is
unitless or the value is exactly zero, pairs in source order joined by
`"; "`.  (Repeated calls agree definitionally: the embedding is a pure
function of the property list, as is the reference, which reads no mutable
state.) -/
theorem c8_style_object_folding (props : List ObjectPropertyKind)
    (h : styleShapeOK props = true) :
    object_to_style_string props = some (specStyleString props) := by
  simp [object_to_style_string, style_props_fold props h, specStyleString]

/-- Witness for `c8_style_object_folding` at
`{marginTop: 4, opacity: 0.5, zIndex: 0}`. -/
theorem c8_style_object_folding_witness :
    styleShapeOK c8obj = true ∧
    object_to_style_string c8obj = some "margin-top: 4px; opacity: 0.5; z-index: 0" :=
  ⟨rfl, (c8_style_object_folding c8obj rfl).trans rfl⟩

/-! ### C3: the single-dynamic-child pre-pass -/

/-- Accumulator form of `single_go`: the result always equals "accumulated
expression count plus units of the remainder is one, and neither the flag
nor the remainder reports other content". -/
theorem single_go_eq (cs : List JSXChild) (ec : Nat) (oc : Bool) :
    single_go cs ec oc = ((ec + countUnits cs == 1) && !(oc || anyHard cs)) := by
  induction cs, ec, oc using single_go.induct
  case case1 => simp [single_go, countUnits, anyHard]
  case case2 rest ec oc t ih =>
    simp_all [single_go, countUnits, anyHard, dynUnit, hardContent,
      Bool.and_assoc, Bool.and_comm, Bool.and_left_comm]
  case case3 rest ec oc ce ih =>
    simp_all [single_go, countUnits, anyHard, dynUnit, hardContent]
  case case4 rest ec oc oe ih =>
    cases oe <;>
      simp_all [single_go, countUnits, anyHard, dynUnit, hardContent,
        Nat.add_assoc, Nat.add_comm, Nat.add_left_comm]
  case case5 rest ec oc fcs hf ihf ih =>
    simp only [single_go, countUnits, anyHard, dynUnit, hardContent, amendedSingle] at *
    rw [hf] at ihf ⊢
    simp_all [Nat.add_assoc, Nat.add_comm, Nat.add_left_comm,
      Bool.and_assoc, Bool.and_comm, Bool.and_left_comm]
  case case6 rest ec oc fcs hf ihf ih =>
    have hff : single_go fcs 0 false = false := by
      cases h : single_go fcs 0 false
      · rfl
      · exact absurd h hf
    have hb : (countUnits fcs == 1 && !anyHard fcs) = false := by
      have h2 := ihf
      rw [hff] at h2
      simpa using h2.symm
    simp [single_go, countUnits, anyHard, dynUnit, hardContent, amendedSingle,
      hff, hb, ih]
  case case7 rest ec oc ih =>
    simp only [single_go, countUnits, anyHard, dynUnit, hardContent, ih]
    simp

/-- C3 counterexample: on `{x}` followed by a fragment holding only
whitespace, the reference returns `false` although after flattening
fragments and discarding whitespace-only text the list is exactly one
expression container — the whitespace-only fragment does make it return
false, contradicting the claim. -/
theorem c3_counterexample :
    is_single_dynamic_child c3cex = false ∧ specSingleDynamic c3cex = true := by
  constructor
  · simp [c3cex, is_single_dynamic_child, single_go, trim_whitespace, collapseWS,
      collapseWSGo, isJsxWS]
  · have h1 : flattenChildren c3cex =
        [.expressionContainer (some (.identifier "x")), .text "  "] := by
      simp [c3cex, flattenChildren]
    simp [specSingleDynamic, h1, List.filter_cons, significantChild,
      show (trim_whitespace "  ").isEmpty = true from rfl]

/-- C3 (amended): `is_single_dynamic_child` returns true exactly when
exactly one child is a non-empty expression container or a fragment that is
itself single-dynamic, and no child is non-whitespace text, an element, or
a fragment that is not single-dynamic; in particular a whitespace-only
fragment counts as other content. -/
theorem c3_single_dynamic_child_amended (cs : List JSXChild) :
    is_single_dynamic_child cs = amendedSingle cs := by
  rw [is_single_dynamic_child, single_go_eq]
  simp [amendedSingle]

/-! ### C9: the ref transform -/

/-- C9 counterexample: `ref={functionRef}` is not a function literal, yet
the reference emits the immediate application `(functionRef)(el$1)` instead
of the claimed `typeof` dispatch, because it inspects the serialized text
with `starts_with("function")`. -/
theorem c9_counterexample :
    (transform_ref c9attr "el$1" {}).exprs = [⟨"(functionRef)(el$1)"⟩] ∧
    (transform_ref c9attr "el$1" {}).exprs ≠
      [⟨"typeof functionRef === \"function\" ? functionRef(el$1) : functionRef = el$1"⟩] := by
  constructor
  · rfl
  · decide

/-- C9 (amended): `transform_ref` decides by the serialized source text of
the value: when `expr_to_string(value)` contains `=>` or starts with
`function` — which is the case for every arrow literal and every function
expression literal — it emits `(fn)(elem)`; otherwise it emits the runtime
dispatch `typeof v === "function" ? v(elem) : v = elem`. -/
theorem c9_ref_dispatch (attr : JSXAttribute) (elem_id : String)
    (r : TransformResult) (expr : Expression)
    (h : attr.value = some (.expressionContainer (some expr))) :
    ((transform_ref attr elem_id r).exprs =
      r.exprs ++
        [if containsSub "=>" (expr_to_string expr) ||
            strStarts "function" (expr_to_string expr) then
          ⟨"(" ++ expr_to_string expr ++ ")(" ++ elem_id ++ ")"⟩
         else
          ⟨"typeof " ++ expr_to_string expr ++ " === \"function\" ? " ++
            expr_to_string expr ++ "(" ++ elem_id ++ ") : " ++
            expr_to_string expr ++ " = " ++ elem_id⟩]) ∧
    (∀ body, containsSub "=>" (expr_to_string (.arrowFn body)) = true) ∧
    (∀ body, strStarts "function" (expr_to_string (.functionExpr body)) = true) := by
  refine ⟨?_, ?_, ?_⟩
  · cases attr with
    | mk n v =>
      simp only at h
      subst h
      simp only [transform_ref]
      split <;> simp_all
  · intro body
    simp [expr_to_string, containsSub, infixCheck, List.isPrefixOf]
  · intro body
    simp [expr_to_string, strStarts, List.isPrefixOf]

/-- Witness for `c9_ref_dispatch` at `ref={functionRef}`. -/
theorem c9_ref_dispatch_witness :
    c9attr.value = some (.expressionContainer (some (.identifier "functionRef"))) ∧
    (transform_ref c9attr "el$1" ({} : TransformResult)).exprs =
      [if containsSub "=>" (expr_to_string (.identifier "functionRef")) ||
          strStarts "function" (expr_to_string (.identifier "functionRef")) then
        ⟨"(" ++ expr_to_string (.identifier "functionRef") ++ ")(el$1)"⟩
       else
        ⟨"typeof " ++ expr_to_string (.identifier "functionRef") ++
          " === \"function\" ? " ++ expr_to_string (.identifier "functionRef") ++
          "(el$1) : " ++ expr_to_string (.identifier "functionRef") ++ " = el$1"⟩] :=
  ⟨rfl, (c9_ref_dispatch c9attr "el$1" {} (.identifier "functionRef") rfl).1⟩

/-! ### C4: event delegation -/

/-- Registration of a delegated event is visible in the context. -/
theorem register_delegate_contains (ev : String) (ctx : BlockContext) :
    (register_delegate ev ctx).delegates.contains ev = true := by
  rw [register_delegate]
  split
  · assumption
  · simp

/-- Registration of a helper import is visible in the context. -/
theorem register_helper_contains (h : String) (ctx : BlockContext) :
    (register_helper h ctx).helpers.contains h = true := by
  rw [register_helper]
  split
  · assumption
  · simp

/-- Unfolded form of `transform_event`: one `if` on the delegation test. -/
theorem transform_event_eq (attr : JSXAttribute) (key elem_id : String)
    (r : TransformResult) (ctx : BlockContext) (options : TransformOptions) :
    transform_event attr key elem_id r ctx options =
      (if (!strStarts "on:" key && !strEnds "Capture" key && options.delegate_events &&
          (DELEGATED_EVENTS.contains
            (to_event_name (if strEnds "Capture" key then key.dropRight 7 else key)) ||
           options.delegated_events.contains
            (to_event_name (if strEnds "Capture" key then key.dropRight 7 else key)))) = true
       then
        ({ r with exprs := r.exprs ++
            [⟨elem_id ++ ".$$" ++
              to_event_name (if strEnds "Capture" key then key.dropRight 7 else key) ++
              " = " ++ event_handler_string attr⟩] },
         register_delegate
           (to_event_name (if strEnds "Capture" key then key.dropRight 7 else key)) ctx)
       else
        ({ r with exprs := r.exprs ++
            [⟨"addEventListener(" ++ elem_id ++ ", \"" ++
              to_event_name (if strEnds "Capture" key then key.dropRight 7 else key) ++
              "\", " ++ event_handler_string attr ++ ", " ++
              boolStr (strEnds "Capture" key) ++ ")"⟩] },
         register_helper "addEventListener" ctx)) := rfl

/-- C4: a non-`on:`-prefixed key without `Capture` suffix whose lowercased
base name is delegable (built-in set or user config) under enabled
delegation emits `elem.$$event = handler` and registers the event; every
other case emits `addEventListener(elem, "event", handler, capture)` and
registers the helper. -/
theorem c4_event_transform (attr : JSXAttribute) (key elem_id : String)
    (r : TransformResult) (ctx : BlockContext) (options : TransformOptions) :
    ((!strStarts "on:" key && !strEnds "Capture" key && options.delegate_events &&
        (DELEGATED_EVENTS.contains (to_event_name key) ||
         options.delegated_events.contains (to_event_name key))) = true →
      transform_event attr key elem_id r ctx options =
        ({ r with exprs := r.exprs ++
            [⟨elem_id ++ ".$$" ++ to_event_name key ++ " = " ++ event_handler_string attr⟩] },
         register_delegate (to_event_name key) ctx) ∧
      (transform_event attr key elem_id r ctx options).2.delegates.contains
        (to_event_name key) = true) ∧
    ((!strStarts "on:" key && !strEnds "Capture" key && options.delegate_events &&
        (DELEGATED_EVENTS.contains
          (to_event_name (if strEnds "Capture" key then key.dropRight 7 else key)) ||
         options.delegated_events.contains
          (to_event_name (if strEnds "Capture" key then key.dropRight 7 else key)))) = false →
      transform_event attr key elem_id r ctx options =
        ({ r with exprs := r.exprs ++
            [⟨"addEventListener(" ++ elem_id ++ ", \"" ++
              to_event_name (if strEnds "Capture" key then key.dropRight 7 else key) ++
              "\", " ++ event_handler_string attr ++ ", " ++
              boolStr (strEnds "Capture" key) ++ ")"⟩] },
         register_helper "addEventListener" ctx) ∧
      (transform_event attr key elem_id r ctx options).2.helpers.contains
        "addEventListener" = true) := by
  constructor
  · intro h
    have hcap : strEnds "Capture" key = false := by
      rcases hc : strEnds "Capture" key
      · rfl
      · rw [hc] at h
        simp at h
    have he : (if strEnds "Capture" key then key.dropRight 7 else key) = key := by
      rw [hcap]
      rfl
    have h2 : (!strStarts "on:" key && !strEnds "Capture" key && options.delegate_events &&
        (DELEGATED_EVENTS.contains
          (to_event_name (if strEnds "Capture" key then key.dropRight 7 else key)) ||
         options.delegated_events.contains
          (to_event_name (if strEnds "Capture" key then key.dropRight 7 else key)))) = true := by
      rw [he]
      exact h
    constructor
    · rw [transform_event_eq, if_pos h2, he]
    · rw [transform_event_eq, if_pos h2, he]
      exact register_delegate_contains _ _
  · intro h
    constructor
    · rw [transform_event_eq, if_neg (by simp only [h]; exact Bool.false_ne_true)]
    · rw [transform_event_eq, if_neg (by simp only [h]; exact Bool.false_ne_true)]
      exact register_helper_contains _ _

/-- Witness for `c4_event_transform`: `onClick={h}` with default options is
delegated as `click`. -/
theorem c4_event_transform_witness :
    (!strStarts "on:" "onClick" && !strEnds "Capture" "onClick" &&
      TransformOptions.delegate_events {} &&
      (DELEGATED_EVENTS.contains (to_event_name "onClick") ||
       (TransformOptions.delegated_events {}).contains (to_event_name "onClick"))) = true ∧
    transform_event c4attr "onClick" "el$1" {} {} {} =
      ({ ({} : TransformResult) with exprs := ([] : List Expr) ++
          [⟨"el$1" ++ ".$$" ++ to_event_name "onClick" ++ " = " ++
            event_handler_string c4attr⟩] },
       register_delegate (to_event_name "onClick") {}) :=
  ⟨rfl, ((c4_event_transform c4attr "onClick" "el$1" {} {} {}).1 rfl).1⟩

/-! ### C1: the closing-tags template field -/

/-- C1: on `<div class="x" />` the static `class` attribute is inlined into
`template` but is missing from `template_with_closing_tags`; the reference
pushes static attribute text only into `template` (`element.rs` lines
266-273), contradicting the claimed superset property.  The claim matches
the spec's stated invariant, so this is recorded as a defect of the code. -/
theorem c1_static_attribute_lost :
    ((transform_element tcNone {} c1elem "div" {} {}).toOption.map
      (fun p => (p.1.template, p.1.template_with_closing_tags))) =
      some ("<div class=\"x\"></div>", "<div></div>") := rfl

/-! ### C2: innerHTML / textContent -/

/-- C2: expression-container values emit a direct assignment, wrapped in
`effect(...)` exactly when dynamic; a literal `innerHTML` becomes a runtime
assignment; but a literal `textContent` is silently dropped — the reference
leaves both the template and the expression list untouched (`element.rs`
lines 672-675), instead of inlining the text into the template as claimed.
The final conjunct exhibits that defect. -/
theorem c2_inner_content_transform (lit elem_id key : String) (r : TransformResult)
    (ctx : BlockContext) (expr : Expression) :
    (is_dynamic expr = true →
      transform_inner_content ⟨.identifier key, some (.expressionContainer (some expr))⟩
        key elem_id r ctx =
        ({ r with exprs := r.exprs ++
            [⟨"effect(() => " ++ elem_id ++ "." ++ key ++ " = " ++
              expr_to_string expr ++ ")"⟩] },
         register_helper "effect" ctx)) ∧
    (is_dynamic expr = false →
      transform_inner_content ⟨.identifier key, some (.expressionContainer (some expr))⟩
        key elem_id r ctx =
        ({ r with exprs := r.exprs ++
            [⟨elem_id ++ "." ++ key ++ " = " ++ expr_to_string expr⟩] }, ctx)) ∧
    (transform_inner_content ⟨.identifier "innerHTML", some (.stringLiteral lit)⟩
        "innerHTML" elem_id r ctx =
      ({ r with exprs := r.exprs ++
          [⟨elem_id ++ ".innerHTML = \"" ++ escape_html lit false ++ "\""⟩] }, ctx)) ∧
    (transform_inner_content ⟨.identifier "textContent", some (.stringLiteral lit)⟩
        "textContent" elem_id r ctx = (r, ctx)) := by
  refine ⟨fun h => ?_, fun h => ?_, rfl, rfl⟩
  · simp [transform_inner_content, h]
  · simp [transform_inner_content, h]

/-- Witness for `c2_inner_content_transform` at `innerHTML={x()}`. -/
theorem c2_inner_content_transform_witness :
    is_dynamic (Expression.callExpr (.identifier "x") []) = true ∧
    transform_inner_content
      ⟨.identifier "innerHTML",
       some (.expressionContainer (some (.callExpr (.identifier "x") [])))⟩
      "innerHTML" "el$1" {} {} =
      ({ ({} : TransformResult) with exprs := ([] : List Expr) ++
          [⟨"effect(() => " ++ "el$1" ++ "." ++ "innerHTML" ++ " = " ++
            expr_to_string (Expression.callExpr (.identifier "x") []) ++ ")"⟩] },
       register_helper "effect" {}) :=
  ⟨rfl,
    (c2_inner_content_transform "" "el$1" "innerHTML" {} {}
      (.callExpr (.identifier "x") [])).1 rfl⟩

/-! ### C6: when an element id is issued -/

/-- The ref handler never changes the element id. -/
theorem transform_ref_id (attr : JSXAttribute) (eid : String) (r : TransformResult) :
    (transform_ref attr eid r).id = r.id := by
  rcases attr with ⟨n, v⟩
  rcases v with _ | val
  · rfl
  rcases val with _ | oe | _
  · rfl
  · rcases oe with _ | e
    · rfl
    · by_cases hc : (containsSub "=>" (expr_to_string e) ||
        strStarts "function" (expr_to_string e)) = true
      · simp [transform_ref, hc]
      · simp [transform_ref, hc]
  · rfl

/-- The event handler never changes the element id. -/
theorem transform_event_id (attr : JSXAttribute) (key eid : String)
    (r : TransformResult) (ctx : BlockContext) (options : TransformOptions) :
    (transform_event attr key eid r ctx options).1.id = r.id := by
  rw [transform_event_eq]
  split <;> split <;> rfl

/-- The directive handler never changes the element id. -/
theorem transform_directive_id (attr : JSXAttribute) (key eid : String)
    (r : TransformResult) (ctx : BlockContext) :
    (transform_directive attr key eid r ctx).1.id = r.id := rfl

/-- The prop handler never changes the element id. -/
theorem transform_prop_id (attr : JSXAttribute) (key eid : String)
    (r : TransformResult) (ctx : BlockContext) :
    (transform_prop attr key eid r ctx).1.id = r.id := by
  rcases attr with ⟨n, v⟩
  rcases v with _ | val
  · rfl
  rcases val with _ | oe | _
  · rfl
  · rcases oe with _ | e
    · rfl
    · by_cases hd : is_dynamic e = true
      · simp [transform_prop, hd]
      · simp [transform_prop, hd]
  · rfl

/-- The attr handler never changes the element id. -/
theorem transform_attr_id (attr : JSXAttribute) (key eid : String)
    (r : TransformResult) (ctx : BlockContext) :
    (transform_attr attr key eid r ctx).1.id = r.id := by
  rcases attr with ⟨n, v⟩
  rcases v with _ | val
  · rfl
  rcases val with _ | oe | _
  · rfl
  · rcases oe with _ | e
    · rfl
    · rfl
  · rfl

/-- The style fallback never changes the element id. -/
theorem transform_style_runtime_id (expr : Expression) (eid : Option String)
    (r : TransformResult) (ctx : BlockContext) (out : TransformResult × BlockContext)
    (h : transform_style_runtime expr eid r ctx = .ok out) : out.1.id = r.id := by
  unfold transform_style_runtime at h
  split at h
  · exact absurd h (by simp)
  · split at h <;> (cases h; rfl)

/-- The style handler never changes the element id. -/
theorem transform_style_id (attr : JSXAttribute) (eid : Option String)
    (r : TransformResult) (ctx : BlockContext) (out : TransformResult × BlockContext)
    (h : transform_style attr eid r ctx = .ok out) : out.1.id = r.id := by
  unfold transform_style at h
  split at h
  · cases h; rfl
  · split at h
    · split at h
      · cases h; rfl
      · exact transform_style_runtime_id _ _ _ _ _ h
    · exact transform_style_runtime_id _ _ _ _ _ h
  · cases h; rfl

/-- The inner-content handler never changes the element id. -/
theorem transform_inner_content_id (attr : JSXAttribute) (key eid : String)
    (r : TransformResult) (ctx : BlockContext) :
    (transform_inner_content attr key eid r ctx).1.id = r.id := by
  rcases attr with ⟨n, v⟩
  rcases v with _ | val
  · rfl
  rcases val with lit | oe | _
  · by_cases hk : (key == "innerHTML") = true
    · simp [transform_inner_content, hk]
    · simp [transform_inner_content, hk]
  · rcases oe with _ | e
    · rfl
    · by_cases hd : is_dynamic e = true
      · simp [transform_inner_content, hd]
      · simp [transform_inner_content, hd]
  · rfl

/-- The attribute router never changes the element id. -/
theorem transform_attribute_id (attr : JSXAttribute) (elem_id : Option String)
    (r : TransformResult) (ctx : BlockContext) (options : TransformOptions)
    (out : TransformResult × BlockContext)
    (h : transform_attribute attr elem_id r ctx options = .ok out) :
    out.1.id = r.id := by
  unfold transform_attribute at h
  simp only [] at h
  repeat' split at h
  all_goals first
    | (cases h <;> rfl)
    | (cases h <;> exact transform_ref_id _ _ _)
    | (cases h <;> exact transform_event_id _ _ _ _ _ _)
    | (cases h <;> exact transform_prop_id _ _ _ _ _)
    | (cases h <;> exact transform_attr_id _ _ _ _ _)
    | (cases h <;> exact transform_inner_content_id _ _ _ _ _)
    | exact transform_style_id _ _ _ _ _ h

/-- The attribute loop never changes the element id. -/
theorem transform_attributes_go_id (element : JSXElement) (elem_id : Option String)
    (options : TransformOptions) :
    ∀ (attrs : List JSXAttributeItem) (r : TransformResult) (ctx : BlockContext)
      (out : TransformResult × BlockContext),
      transform_attributes_go element elem_id options attrs r ctx = .ok out →
      out.1.id = r.id
  | [], r, ctx, out, h => by cases h; rfl
  | .attributeItem attr :: rest, r, ctx, out, h => by
    unfold transform_attributes_go at h
    split at h
    · cases h
    · rename_i r1 hr1
      rw [transform_attributes_go_id element elem_id options rest _ _ out h]
      exact transform_attribute_id _ _ _ _ _ _ hr1
  | .spreadAttribute arg :: rest, r, ctx, out, h => by
    unfold transform_attributes_go at h
    split at h
    · cases h
    · simp only [] at h
      rw [transform_attributes_go_id element _ options rest _ _ out h]

/-- The attribute phase never changes the element id. -/
theorem transform_attributes_id (element : JSXElement) (r : TransformResult)
    (ctx : BlockContext) (options : TransformOptions)
    (out : TransformResult × BlockContext)
    (h : transform_attributes element r ctx options = .ok out) :
    out.1.id = r.id :=
  transform_attributes_go_id element r.id options element.attributes r ctx out h

/-- Merging a child result never changes the accumulator's element id. -/
theorem merge_child_id (r cres : TransformResult) : (merge_child r cres).id = r.id := rfl

/-- The child iteration never changes the accumulator's element id. -/
theorem tcl_id (tc : JSXChild → Option TransformResult) (options : TransformOptions) :
    ∀ (cs : List JSXChild) (r : TransformResult) (info : TransformInfo)
      (ctx : BlockContext) (ni : Nat) (lwt single : Bool)
      (out : TransformResult × Nat × Bool × BlockContext),
      transform_children_list tc options cs r info ctx ni lwt single = .ok out →
      out.1.id = r.id
  | [], r, info, ctx, ni, lwt, single, out, h => by cases h; rfl
  | .text t :: rest, r, info, ctx, ni, lwt, single, out, h => by
    rw [transform_children_list.eq_2] at h
    split at h
    · rw [tcl_id tc options rest _ _ _ _ _ _ out h]
    · simp only [] at h
      split at h
      · rw [tcl_id tc options rest _ _ _ _ _ _ out h]
      · rw [tcl_id tc options rest _ _ _ _ _ _ out h]
  | .element ce :: rest, r, info, ctx, ni, lwt, single, out, h => by
    rw [transform_children_list.eq_3] at h
    split at h
    · split at h
      · split at h
        · rw [tcl_id tc options rest _ _ _ _ _ _ out h]
        · simp only [] at h
          split at h
          · rw [tcl_id tc options rest _ _ _ _ _ _ out h]
          · rw [tcl_id tc options rest _ _ _ _ _ _ out h]
      · rw [tcl_id tc options rest _ _ _ _ _ _ out h]
    · simp only [] at h
      split at h
      · cases h
      · rename_i cres hce
        rw [tcl_id tc options rest _ _ _ _ _ _ out h]
        rfl
  | .expressionContainer oe :: rest, r, info, ctx, ni, lwt, single, out, h => by
    rcases hrid : r.id with _ | pid
    · rw [transform_children_list.eq_5 tc options r info ctx ni lwt single rest oe
        (by intro p e hp he; rw [hrid] at hp; cases hp)] at h
      rw [tcl_id tc options rest _ _ _ _ _ _ out h]
      exact hrid
    · rcases oe with _ | e
      · rw [transform_children_list.eq_5 tc options r info ctx ni lwt single rest none
          (by intro p e hp he; cases he)] at h
        rw [tcl_id tc options rest _ _ _ _ _ _ out h]
        exact hrid
      · rw [transform_children_list.eq_4 tc options r info ctx ni lwt single rest pid e hrid] at h
        split at h
        · simp only [] at h
          rw [tcl_id tc options rest _ _ _ _ _ _ out h]
          exact hrid
        · simp only [] at h
          rw [tcl_id tc options rest _ _ _ _ _ _ out h]
          exact hrid
  | .fragment fcs :: rest, r, info, ctx, ni, lwt, single, out, h => by
    rw [transform_children_list.eq_6] at h
    split at h
    · cases h
    · rename_i r1 ni1 lwt1 ctx1 hr1
      rw [tcl_id tc options rest _ _ _ _ _ _ out h]
      rw [tcl_id tc options fcs _ _ _ _ _ _ _ hr1]
  | .spreadChild :: rest, r, info, ctx, ni, lwt, single, out, h => by
    rw [transform_children_list.eq_7] at h
    rw [tcl_id tc options rest _ _ _ _ _ _ out h]
termination_by cs => sizeOf cs

/-- Id produced by the id-issuing step. -/
theorem element_id_step_id (info : TransformInfo) (ctx : BlockContext)
    (needs : Bool) (r0 : TransformResult) :
    (element_id_step info ctx needs r0).1.id =
      (if (!info.skip_id && (info.top_level || needs)) = true
       then some (uidName "el$" ctx.uid) else r0.id) := by
  rw [element_id_step]
  split
  · simp only [generate_uid]
    split
    · split <;> rfl
    · rfl
  · rfl

/-- Id of a successful element lowering: present exactly under the
reference's issuing condition, and equal to the fresh uid. -/
theorem transform_element_id (tc : JSXChild → Option TransformResult)
    (options : TransformOptions) (e : JSXElement) (tag : String)
    (info : TransformInfo) (ctx : BlockContext) (out : TransformResult × BlockContext)
    (h : transform_element tc options e tag info ctx = .ok out) :
    out.1.id = (if (!info.skip_id && (info.top_level || element_needs_runtime_access e)) = true
                then some (uidName "el$" ctx.uid) else none) := by
  rcases e with ⟨ename, attrs, children⟩
  rw [transform_element] at h
  rcases hstep : element_id_step info ctx
      (element_needs_runtime_access (JSXElement.mk ename attrs children))
      { tag_name := some tag, is_svg := is_svg_element tag,
        has_custom_element := strHasChar '-' tag } with ⟨rid, ctx1⟩
  rw [hstep] at h
  try simp only [] at h
  have hrid : rid.id = (if (!info.skip_id &&
      (info.top_level || element_needs_runtime_access (JSXElement.mk ename attrs children))) = true
      then some (uidName "el$" ctx.uid) else none) := by
    have := element_id_step_id info ctx
      (element_needs_runtime_access (JSXElement.mk ename attrs children))
      { tag_name := some tag, is_svg := is_svg_element tag,
        has_custom_element := strHasChar '-' tag }
    rw [hstep] at this
    exact this
  split at h
  · cases h
  · rename_i r4 ctx2 hattrs
    try simp only [] at h
    split at h
    · cases h
      rw [transform_attributes_id _ _ _ _ _ hattrs]
      exact hrid
    · split at h
      · cases h
      · rename_i r6 ni6 lwt6 ctx3 hch
        cases h
        rw [show r6.id = rid.id from
          (tcl_id tc options children _ _ _ _ _ _ _ hch).trans
            (transform_attributes_id _ _ _ _ _ hattrs)]
        exact hrid

/-- Congruence of `List.any` under pointwise equal predicates. -/
theorem any_congr_fn {α : Type} (f g : α → Bool) :
    ∀ l : List α, (∀ a ∈ l, f a = g a) → l.any f = l.any g
  | [], _ => rfl
  | a :: rest, h => by
    simp only [List.any_cons]
    rw [h a (List.mem_cons_self a rest),
      any_congr_fn f g rest (fun b hb => h b (List.mem_cons_of_mem a hb))]

/-- Per-attribute agreement between the reference's runtime-access test and
the claim's description. -/
theorem attr_access_spec_eq (a : JSXAttributeItem) :
    attr_needs_runtime_access a = specAttrAccess a := by
  rcases a with ⟨n, v⟩ | arg
  · rcases n with nm | ⟨ns, nm2⟩
    · rw [attr_needs_runtime_access, specAttrAccess]
      simp only [is_namespaced_attr, Bool.false_or, get_attr_name]
      by_cases hk : (nm == "ref" || nm == "innerHTML" || nm == "textContent" ||
          nm == "innerText") = true
      · rcases v with _ | val <;> simp_all
      · by_cases hon : (strStarts "on" nm && decide (nm.length > 2)) = true
        · rcases v with _ | val <;> simp_all
        · rcases v with _ | val
          · simp_all
          · rcases val with _ | oe | _ <;> simp_all
    · rw [attr_needs_runtime_access, specAttrAccess]
      simp [is_namespaced_attr]
  · rfl

/-- The child part of the runtime-access test sees exactly the fragments'
flattening. -/
theorem cnra_eq : (cs : List JSXChild) →
    children_need_runtime_access cs = (flattenChildren cs).any specChildAccess
  | [] => by simp [children_need_runtime_access, flattenChildren]
  | .text t :: rest => by
    simp only [children_need_runtime_access, flattenChildren, List.any_cons,
      specChildAccess, cnra_eq rest]
    simp
  | .element ce :: rest => by
    simp only [children_need_runtime_access, flattenChildren, List.any_cons,
      specChildAccess]
    by_cases hc : is_component (get_tag_name ce) = true <;>
      simp [hc, cnra_eq rest]
  | .expressionContainer oe :: rest => by
    simp only [children_need_runtime_access, flattenChildren, List.any_cons,
      specChildAccess]
    simp
  | .fragment fcs :: rest => by
    have hf := cnra_eq fcs
    have hr := cnra_eq rest
    simp only [children_need_runtime_access, flattenChildren, List.any_append, hf, hr]
    by_cases hb : (flattenChildren fcs).any specChildAccess = true
    · simp [hb]
    · simp only [Bool.not_eq_true] at hb
      simp [hb]
  | .spreadChild :: rest => by
    simp only [children_need_runtime_access, flattenChildren, List.any_cons,
      specChildAccess, cnra_eq rest]
    simp
termination_by cs => sizeOf cs

/-- The reference's runtime-access test agrees with the claim's description. -/
theorem access_spec_eq (e : JSXElement) :
    element_needs_runtime_access e = needsAccessSpec e := by
  rw [element_needs_runtime_access, needsAccessSpec, cnra_eq]
  congr 1
  exact any_congr_fn _ _ _ (fun a _ => attr_access_spec_eq a)

/-- C6: a successful `transform_element` issues an id exactly when
`skip_id` is false and the element is top-level or needs runtime access;
and the runtime-access test holds exactly under the claim's description
(some attribute is spread, namespaced, `ref`, inner-content, an `on…`
event, or an expression container, or some descendant reached only through
fragments is a component or an expression container). -/
theorem c6_element_id_issued (tc : JSXChild → Option TransformResult)
    (options : TransformOptions) (e : JSXElement) (tag : String)
    (info : TransformInfo) (ctx : BlockContext) (out : TransformResult × BlockContext)
    (h : transform_element tc options e tag info ctx = .ok out) :
    (out.1.id.isSome = true ↔
      (info.skip_id = false ∧
        (info.top_level = true ∨ element_needs_runtime_access e = true))) ∧
    element_needs_runtime_access e = needsAccessSpec e := by
  refine ⟨?_, access_spec_eq e⟩
  rw [transform_element_id tc options e tag info ctx out h]
  by_cases hc : (!info.skip_id && (info.top_level || element_needs_runtime_access e)) = true
  · rw [if_pos hc]
    simp only [Bool.and_eq_true, Bool.not_eq_true', Bool.or_eq_true] at hc
    simp [hc]
  · rw [if_neg hc]
    simp only [Bool.and_eq_true, Bool.not_eq_true', Bool.or_eq_true, not_and_or,
      not_or] at hc
    simp only [Option.isSome_none, Bool.false_eq_true, false_iff, not_and_or, not_or]
    rcases hc with hc | hc
    · left
      simpa using hc
    · right
      push_neg at hc
      simp_all
  
/-- Witness for `c6_element_id_issued` at `<div class="x" />` (top level). -/
theorem c6_element_id_issued_witness :
    transform_element tcNone {} c1elem "div" {} {} = .ok c6out ∧
    c6out.1.id.isSome = true :=
  ⟨rfl,
    (c6_element_id_issued tcNone {} c1elem "div" {} {} c6out rfl).1.mpr
      ⟨rfl, Or.inl rfl⟩⟩

/-! ### C10: children under a missing parent id -/

/-- C10: when the running result carries no element id, an
expression-container child or a component child contributes nothing: the
iteration continues on the remaining children with the same result, node
index and context (so no marker or text reaches either template field, no
insert or declaration is emitted, the node index does not advance, and no
error is raised); only the `last_was_text` flag is reset for component
children. -/
theorem c10_id_none_drops_dynamic_children (tc : JSXChild → Option TransformResult)
    (options : TransformOptions) (c : JSXChild) (rest : List JSXChild)
    (r : TransformResult) (info : TransformInfo) (ctx : BlockContext)
    (ni : Nat) (lwt single : Bool)
    (hid : r.id = none)
    (hc : (∃ oe, c = JSXChild.expressionContainer oe) ∨
          (∃ ce, c = JSXChild.element ce ∧ is_component (get_tag_name ce) = true)) :
    transform_children_list tc options (c :: rest) r info ctx ni lwt single =
      transform_children_list tc options rest r info ctx ni
        (match c with | JSXChild.element _ => false | _ => lwt) single := by
  rcases hc with ⟨oe, rfl⟩ | ⟨ce, rfl, hcomp⟩
  · rw [transform_children_list.eq_5 tc options r info ctx ni lwt single rest oe
      (fun p e hp _ => by rw [hid] at hp; cases hp)]
  · rw [transform_children_list.eq_3, hid]
    simp only [hcomp, if_true]

/-- Witness for `c10_id_none_drops_dynamic_children` at `{x}` under a
result with no id. -/
theorem c10_id_none_drops_dynamic_children_witness :
    TransformResult.id {} = none ∧
    transform_children_list tcNone {} [c10child] {} {} {} 0 false false =
      transform_children_list tcNone {} [] {} {} {} 0 false false :=
  ⟨rfl,
    c10_id_none_drops_dynamic_children tcNone {} c10child [] {} {} {} 0 false false
      rfl (Or.inl ⟨some (.identifier "x"), rfl⟩)⟩

/-! ### Marker-counting lemmas (C5) -/

/-- Unfolding of `countM` at a cons cell. -/
theorem countM_cons (c : Char) (l : List Char) :
    countM (c :: l) = (if mStart (c :: l) then 1 else 0) + countM l := rfl

/-- No marker starts at a character other than `<`. -/
theorem mStart_fst (c : Char) (l : List Char) (hc : c ≠ '<') :
    mStart (c :: l) = false := by
  rcases l with _ | ⟨d, _ | ⟨e, t⟩⟩ <;> simp [mStart, hc]

/-- No marker starts where the second character is not `!`. -/
theorem mStart_snd (x c : Char) (l : List Char) (hc : c ≠ '!') :
    mStart (x :: c :: l) = false := by
  rcases l with _ | ⟨e, t⟩ <;> simp [mStart, hc]

/-- No marker starts where the third character is not `>`. -/
theorem mStart_third (x y c : Char) (l : List Char) (hc : c ≠ '>') :
    mStart (x :: y :: c :: l) = false := by
  simp [mStart, hc]

/-- The marker test only reads the first three characters. -/
theorem mStart_three (x y z : Char) (l l' : List Char) :
    mStart (x :: y :: z :: l) = mStart (x :: y :: z :: l') := by
  simp [mStart]

/-- A list without `<` holds no marker. -/
theorem countM_no_lt : ∀ l : List Char, (∀ c ∈ l, c ≠ '<') → countM l = 0
  | [], _ => rfl
  | c :: rest, h => by
    rw [countM_cons, mStart_fst c rest (h c (List.mem_cons_self c rest)),
      countM_no_lt rest (fun x hx => h x (List.mem_cons_of_mem c hx))]
    rfl

/-- Appending a list that starts with `<` splits the marker count. -/
theorem countM_append_lt : ∀ (a b : List Char),
    countM (a ++ '<' :: b) = countM a + countM ('<' :: b)
  | [], b => by simp [countM]
  | [x], b => by
    simp only [List.cons_append, List.nil_append]
    rw [countM_cons x ('<' :: b), mStart_snd x '<' b (by decide)]
    simp [countM, mStart]
  | x :: y :: a', b => by
    have ih := countM_append_lt (y :: a') b
    simp only [List.cons_append] at ih ⊢
    rw [countM_cons x (y :: (a' ++ '<' :: b)), countM_cons x (y :: a'), ih]
    have hm : mStart (x :: y :: (a' ++ '<' :: b)) = mStart (x :: y :: a') := by
      rcases a' with _ | ⟨z, a''⟩
      · simp only [List.nil_append]
        rw [mStart_third x y '<' b (by decide)]
        simp [mStart]
      · simp only [List.cons_append]
        exact mStart_three x y z _ _
    rw [hm]
    omega

/-- Appending the marker text adds exactly one to the marker count. -/
theorem countM_append_marker (a : List Char) :
    countM (a ++ ['<', '!', '>']) = countM a + 1 := by
  have h := countM_append_lt a ['!', '>']
  simpa [countM, mStart] using h

/-- Appending an angle-bracket-free list leaves the marker count unchanged. -/
theorem countM_append_clean : ∀ (a b : List Char),
    (∀ c ∈ b, c ≠ '<' ∧ c ≠ '>') → countM (a ++ b) = countM a
  | [], b, h => countM_no_lt b (fun c hc => (h c hc).1)
  | [x], b, h => by
    simp only [List.cons_append, List.nil_append]
    rw [countM_cons x b, countM_no_lt b (fun c hc => (h c hc).1)]
    have hm : mStart (x :: b) = false := by
      rcases b with _ | ⟨b0, _ | ⟨b1, b2⟩⟩
      · simp [mStart]
      · simp [mStart]
      · exact mStart_third x b0 b1 b2 (h b1 (by simp)).2
    rw [hm]
    simp [countM, mStart]
  | x :: y :: a', b, h => by
    have ih := countM_append_clean (y :: a') b h
    simp only [List.cons_append] at ih ⊢
    rw [countM_cons x (y :: (a' ++ b)), countM_cons x (y :: a'), ih]
    have hm : mStart (x :: y :: (a' ++ b)) = mStart (x :: y :: a') := by
      rcases a' with _ | ⟨z, a''⟩
      · simp only [List.nil_append]
        rcases b with _ | ⟨b0, b1⟩
        · rfl
        · rw [mStart_third x y b0 b1 (h b0 (by simp)).2]
          simp [mStart]
      · simp only [List.cons_append]
        exact mStart_three x y z _ _
    rw [hm]

/-- A `<`-headed list whose next character is not `!` and whose tail is
`<`-free holds no marker. -/
theorem countM_lt_head (c0 : Char) (t : List Char) (h1 : c0 ≠ '!') (h2 : c0 ≠ '<')
    (h3 : ∀ c ∈ t, c ≠ '<') : countM ('<' :: c0 :: t) = 0 := by
  rw [countM_cons, mStart_snd '<' c0 t h1,
    countM_no_lt (c0 :: t) (by
      intro c hc
      rcases List.mem_cons.mp hc with rfl | hc
      · exact h2
      · exact h3 c hc)]
  rfl

/-! ### Walk-init lemmas (C5) -/

/-- A dot-free list is one group. -/
theorem splitDots_no_dot : ∀ a : List Char, (∀ c ∈ a, c ≠ '.') → splitDots a = [a]
  | [], _ => rfl
  | c :: rest, h => by
    rw [splitDots, if_neg (h c (List.mem_cons_self c rest)),
      splitDots_no_dot rest (fun x hx => h x (List.mem_cons_of_mem c hx))]

/-- Splitting peels a dot-free head group at the first dot. -/
theorem splitDots_append_dot : ∀ (a b : List Char), (∀ c ∈ a, c ≠ '.') →
    splitDots (a ++ '.' :: b) = a :: splitDots b
  | [], b, _ => by simp [splitDots]
  | c :: rest, b, h => by
    simp only [List.cons_append]
    rw [splitDots, if_neg (h c (List.mem_cons_self c rest)),
      splitDots_append_dot rest b (fun x hx => h x (List.mem_cons_of_mem c hx))]

/-- The walk chain's character data. -/
theorem nsChain_data : ∀ k : Nat,
    (nsChain k).data = (List.replicate k ('.' :: "nextSibling".data)).flatten
  | 0 => rfl
  | k + 1 => by
    show (nsChain k ++ ".nextSibling").data = _
    rw [List.replicate_succ', List.flatten_append, String.data_append, nsChain_data k]
    rfl

/-- Splitting a dot-free head followed by a walk chain. -/
theorem splitDots_walk : ∀ (k : Nat) (h0 : List Char), (∀ c ∈ h0, c ≠ '.') →
    splitDots (h0 ++ (List.replicate k ('.' :: "nextSibling".data)).flatten) =
      h0 :: List.replicate k ("nextSibling".data)
  | 0, h0, hh => by simpa using splitDots_no_dot h0 hh
  | k + 1, h0, hh => by
    rw [List.replicate_succ, List.flatten_cons, List.cons_append,
      splitDots_append_dot h0 _ hh,
      splitDots_walk k ("nextSibling".data) (by decide)]
    rfl

/-- The child accessor is a pure walk when the parent id is dot-free. -/
theorem isWalkInit_child_accessor (pid : String) (ni : Nat)
    (hp : ∀ c ∈ pid.data, c ≠ '.') :
    isWalkInit (child_accessor pid ni) = true := by
  rw [isWalkInit, child_accessor]
  rw [String.data_append, String.data_append, nsChain_data]
  rw [show pid.data ++ ".firstChild".data ++ (List.replicate ni ('.' :: "nextSibling".data)).flatten = pid.data ++ '.' :: ("firstChild".data ++ (List.replicate ni ('.' :: "nextSibling".data)).flatten) from by simp]
  rw [splitDots_append_dot pid.data _ hp,
    splitDots_walk ni ("firstChild".data) (by decide)]
  simp only [List.all_eq_true, Bool.and_eq_true, Bool.not_eq_true']
  refine ⟨rfl, ?_⟩
  intro s hs
  rcases List.mem_cons.mp hs with rfl | hs
  · simp
  · rw [List.eq_of_mem_replicate hs]
    simp

/-! ### Digit and uid-name lemmas (C5) -/

/-- Digit characters are decimal digits. -/
theorem digitChar_isDigit : ∀ n : Nat, (digitChar n).isDigit = true
  | 0 => rfl
  | 1 => rfl
  | 2 => rfl
  | 3 => rfl
  | 4 => rfl
  | 5 => rfl
  | 6 => rfl
  | 7 => rfl
  | 8 => rfl
  | _ + 9 => rfl

/-- Every character the decimal renderer emits is a digit. -/
theorem natDigitsAux_digits : ∀ (fuel n : Nat) (c : Char),
    c ∈ natDigitsAux fuel n → c.isDigit = true
  | 0, _, _, h => absurd h (by simp [natDigitsAux])
  | fuel + 1, n, c, h => by
    rw [natDigitsAux] at h
    split at h
    · rw [List.mem_singleton.mp h]
      exact digitChar_isDigit n
    · rcases List.mem_append.mp h with h | h
      · exact natDigitsAux_digits fuel (n / 10) c h
      · rw [List.mem_singleton.mp h]
        exact digitChar_isDigit (n % 10)

/-- The decimal renderer emits at least one character. -/
theorem natDigitsAux_ne_nil (n : Nat) : natDigitsAux (n + 1) n ≠ [] := by
  rw [natDigitsAux]
  split <;> simp

/-- Decimal value of a digit list. -/
def parseD (l : List Char) : Nat := l.foldl (fun a c => 10 * a + (c.toNat - 48)) 0

/-- Value of a digit character. -/
theorem digitChar_val (n : Nat) (h : n < 10) : (digitChar n).toNat - 48 = n := by
  interval_cases n <;> rfl

/-- The decimal renderer round-trips through parsing. -/
theorem natDigitsAux_parse : ∀ (fuel n : Nat), n < fuel →
    parseD (natDigitsAux fuel n) = n
  | 0, _, h => absurd h (by omega)
  | fuel + 1, n, h => by
    rw [natDigitsAux]
    split
    · rename_i h10
      show 10 * 0 + ((digitChar n).toNat - 48) = n
      rw [digitChar_val n h10]
      omega
    · rename_i h10
      rw [parseD, List.foldl_append]
      have hdiv : n / 10 < fuel := by
        have h1 : 0 < n := by omega
        have h2 := Nat.div_lt_self h1 (by omega : 1 < 10)
        omega
      have ih := natDigitsAux_parse fuel (n / 10) hdiv
      rw [parseD] at ih
      rw [ih]
      show 10 * (n / 10) + ((digitChar (n % 10)).toNat - 48) = n
      rw [digitChar_val (n % 10) (Nat.mod_lt n (by omega))]
      omega

/-- Decimal rendering is injective. -/
theorem natRepr_inj (a b : Nat) (h : (natRepr a).data = (natRepr b).data) : a = b := by
  rw [natRepr, natRepr] at h
  have := congrArg parseD h
  rwa [natDigitsAux_parse (a + 1) a (by omega),
    natDigitsAux_parse (b + 1) b (by omega)] at this

/-- Shape of an element uid: `el$` followed by digits. -/
theorem uidName_shape (i : Nat) : ∃ ds, (uidName "el$" i).data = 'e' :: 'l' :: '$' :: ds ∧
    ∀ c ∈ ds, c.isDigit = true := by
  rw [uidName]
  by_cases h0 : i = 0
  · refine ⟨[], ?_, by simp⟩
    rw [if_pos h0]
    rfl
  · refine ⟨natDigitsAux (i + 1 + 1) (i + 1), ?_, fun c hc => natDigitsAux_digits _ _ c hc⟩
    rw [if_neg h0, String.data_append]
    rfl

/-- Element uids are pairwise distinct. -/
theorem uidName_inj (i j : Nat) (h : uidName "el$" i = uidName "el$" j) : i = j := by
  rw [uidName, uidName] at h
  by_cases hi : i = 0 <;> by_cases hj : j = 0
  · omega
  · rw [if_pos hi, if_neg hj] at h
    have hd := congrArg String.data h
    rw [String.data_append, String.data_append] at hd
    have h2 : ("" : String).data = (natRepr (j + 1)).data := List.append_cancel_left hd
    exact absurd h2.symm (natDigitsAux_ne_nil (j + 1))
  · rw [if_neg hi, if_pos hj] at h
    have hd := congrArg String.data h
    rw [String.data_append, String.data_append] at hd
    have h2 : (natRepr (i + 1)).data = ("" : String).data := List.append_cancel_left hd
    exact absurd h2 (natDigitsAux_ne_nil (i + 1))
  · rw [if_neg hi, if_neg hj] at h
    have hd := congrArg String.data h
    rw [String.data_append, String.data_append] at hd
    have h2 : (natRepr (i + 1)).data = (natRepr (j + 1)).data :=
      List.append_cancel_left hd
    have := natRepr_inj (i + 1) (j + 1) h2
    omega

/-- Element uids are dot-free. -/
theorem uidName_no_dot (i : Nat) : ∀ c ∈ (uidName "el$" i).data, c ≠ '.' := by
  obtain ⟨ds, hds, hdig⟩ := uidName_shape i
  rw [hds]
  intro c hc
  rcases hc with _ | ⟨_, _ | ⟨_, _ | ⟨_, hc⟩⟩⟩
  · decide
  · decide
  · decide
  · intro hcdot
    have := hdig c hc
    rw [hcdot] at this
    exact absurd this (by decide)

/-! ### Insert-tail disambiguation (C5) -/

/-- `strEnds` as list suffix. -/
theorem strEnds_iff (p s : String) : strEnds p s = true ↔ p.data <:+ s.data := by
  rw [strEnds]
  exact List.isSuffixOf_iff_suffix

/-- `strStarts` as list prefix relation. -/
theorem strStarts_iff (p s : String) : strStarts p s = true ↔ p.data <+: s.data := by
  rw [strStarts]
  exact List.isPrefixOf_iff_prefix

/-- `strHasChar` as membership. -/
theorem strHasChar_iff (c : Char) (s : String) : strHasChar c s = true ↔ c ∈ s.data := by
  rw [strHasChar]
  exact List.elem_iff

/-- Strip a common last element from a suffix relation. -/
theorem suffix_strip_last (a b : List Char) (x : Char)
    (h : a ++ [x] <:+ b ++ [x]) : a <:+ b := by
  obtain ⟨t, ht⟩ := h
  rw [← List.append_assoc] at ht
  exact ⟨t, List.append_cancel_right ht⟩

/-- Core tail comparison: a suffix shaped `", " ++ x` of the insert tail
`", el$" ++ digits` forces `x` to be the whole uid name. -/
theorem comma_space_suffix (x ds : List Char) (hds : ∀ c ∈ ds, c.isDigit = true)
    (h : ',' :: ' ' :: x <:+ ',' :: ' ' :: 'e' :: 'l' :: '$' :: ds) :
    x = 'e' :: 'l' :: '$' :: ds := by
  rcases List.suffix_cons_iff.mp h with he | h1
  · simpa using he
  rcases List.suffix_cons_iff.mp h1 with he | h2
  · injection he with he _
    exact absurd he (by decide)
  rcases List.suffix_cons_iff.mp h2 with he | h3
  · injection he with he _
    exact absurd he (by decide)
  rcases List.suffix_cons_iff.mp h3 with he | h4
  · injection he with he _
    exact absurd he (by decide)
  rcases List.suffix_cons_iff.mp h4 with he | h5
  · injection he with he _
    exact absurd he (by decide)
  have hmem : ',' ∈ ds := h5.mem (by simp)
  exact absurd (hds ',' hmem) (by decide)

/-- The insert tail's character data. -/
theorem tail_data (n : String) :
    (", " ++ n ++ ")").data = (',' :: ' ' :: n.data) ++ [')'] := by
  rw [String.data_append, String.data_append]
  rfl

/-- Two uid-shaped insert tails on the same code agree. -/
theorem insert_tail_unique (s n1 n2 : String)
    (hn1 : ∃ ds, n1.data = 'e' :: 'l' :: '$' :: ds ∧ ∀ c ∈ ds, c.isDigit = true)
    (hn2 : ∃ ds, n2.data = 'e' :: 'l' :: '$' :: ds ∧ ∀ c ∈ ds, c.isDigit = true)
    (h1 : strEnds (", " ++ n1 ++ ")") s = true)
    (h2 : strEnds (", " ++ n2 ++ ")") s = true) : n1 = n2 := by
  obtain ⟨d1, hd1, hg1⟩ := hn1
  obtain ⟨d2, hd2, hg2⟩ := hn2
  rw [strEnds_iff, tail_data] at h1 h2
  rcases List.suffix_or_suffix_of_suffix h1 h2 with hs | hs
  · have hx := suffix_strip_last _ _ _ hs
    rw [hd2] at hx
    have := comma_space_suffix n1.data d2 hg2 hx
    exact String.ext (this.trans hd2.symm)
  · have hx := suffix_strip_last _ _ _ hs
    rw [hd1] at hx
    have := comma_space_suffix n2.data d1 hg1 hx
    exact (String.ext (this.trans hd1.symm)).symm

/-- A two-argument insert with a `$`-free value never carries a uid-shaped
tail. -/
theorem insert2_no_tail (p v name : String)
    (hv : strHasChar '$' v = false)
    (hn : ∃ ds, name.data = 'e' :: 'l' :: '$' :: ds ∧ ∀ c ∈ ds, c.isDigit = true) :
    strEnds (", " ++ name ++ ")") ("insert(" ++ p ++ ", " ++ v ++ ")") = false := by
  obtain ⟨ds, hd, hg⟩ := hn
  by_contra hcon
  rw [Bool.not_eq_false, strEnds_iff, tail_data] at hcon
  have hv2 : ¬ '$' ∈ v.data := by
    intro hm
    rw [← strHasChar_iff] at hm
    rw [hv] at hm
    cases hm
  have ht : (',' :: ' ' :: v.data) ++ [')'] <:+ ("insert(" ++ p ++ ", " ++ v ++ ")").data := by
    refine ⟨("insert(" ++ p).data, ?_⟩
    rw [String.data_append, String.data_append, String.data_append]
    simp
  rcases List.suffix_or_suffix_of_suffix hcon ht with hs | hs
  · have hx := suffix_strip_last _ _ _ hs
    have hmem : '$' ∈ ',' :: ' ' :: v.data := hx.mem (by rw [hd]; simp)
    simp at hmem
    exact hv2 hmem
  · have hx := suffix_strip_last _ _ _ hs
    rw [hd] at hx
    have := comma_space_suffix v.data ds hg hx
    exact hv2 (by rw [this]; simp)

/-- The generated three-argument insert satisfies the claim's test for its
own marker. -/
theorem isInsert3With_mk (p v m : String) :
    isInsert3With ("insert(" ++ p ++ ", " ++ v ++ ", " ++ m ++ ")") m = true := by
  rw [isInsert3With]
  simp only [Bool.and_eq_true, decide_eq_true_eq]
  refine ⟨⟨?_, ?_⟩, ?_⟩
  · rw [strStarts_iff]
    refine ⟨(p ++ ", " ++ v ++ ", " ++ m ++ ")").data, ?_⟩
    simp only [String.data_append]
    simp [List.append_assoc]
  · rw [strEnds_iff]
    refine ⟨("insert(" ++ p ++ ", " ++ v).data, ?_⟩
    simp only [String.data_append]
    simp [List.append_assoc]
  · rw [charCount, String.data_append, String.data_append, String.data_append,
      String.data_append, String.data_append]
    simp [List.count_append]
    omega

/-- A code that does not start like an insert fails the claim's test. -/
theorem isInsert3With_false (code name : String)
    (h : strStarts "insert(" code = false) : isInsert3With code name = false := by
  rw [isInsert3With, h]
  rfl

/-- A string whose first character is not `i` does not start like an insert. -/
theorem not_starts_insert (s : String) (c : Char) (l : List Char)
    (hdata : s.data = c :: l) (hc : c ≠ 'i') : strStarts "insert(" s = false := by
  rw [strStarts, hdata]
  have hb : ('i' == c) = false := beq_eq_false_iff_ne.mpr (fun he => hc he.symm)
  show List.isPrefixOf ['i', 'n', 's', 'e', 'r', 't', '('] (c :: l) = false
  simp [List.isPrefixOf, hb]

/-! ### Pairing bookkeeping (C5) -/

/-- A code whose uid tail fails cannot pass the claim's insert test. -/
theorem isInsert3With_false_ends (code name : String)
    (h : strEnds (", " ++ name ++ ")") code = false) :
    isInsert3With code name = false := by
  rw [isInsert3With, h]
  simp

/-- The generated three-argument insert ends with its marker tail. -/
theorem insert3_ends (p v m : String) :
    strEnds (", " ++ m ++ ")") ("insert(" ++ p ++ ", " ++ v ++ ", " ++ m ++ ")") = true := by
  have h := isInsert3With_mk p v m
  rw [isInsert3With] at h
  simp only [Bool.and_eq_true] at h
  exact h.1.2

/-- The generated three-argument insert starts like an insert. -/
theorem insert3_starts (p v m : String) :
    strStarts "insert(" ("insert(" ++ p ++ ", " ++ v ++ ", " ++ m ++ ")") = true := by
  have h := isInsert3With_mk p v m
  rw [isInsert3With] at h
  simp only [Bool.and_eq_true] at h
  exact h.1.1

/-- Expression extensions that consume no declaration leave decl pairing
unchanged. -/
theorem pairedDeclsL_exprs_ext (ds : List Declaration) (es1 es2 : List Expr)
    (h : ∀ e ∈ es2, ∀ d ∈ ds, isInsert3With e.code d.name = false) :
    pairedDeclsL ds (es1 ++ es2) = pairedDeclsL ds es1 := by
  rw [pairedDeclsL, pairedDeclsL]
  congr 1
  apply List.filter_congr
  intro d hd
  rw [List.any_append]
  have h2 : es2.any (fun e => isInsert3With e.code d.name) = false := by
    rw [List.any_eq_false]
    intro e he
    simp [h e he d hd]
  rw [h2, Bool.or_false]

/-- Expression extensions that consume no declaration add no paired insert. -/
theorem pairedInsertsL_exprs_ext (ds : List Declaration) (es1 es2 : List Expr)
    (h : ∀ e ∈ es2, ∀ d ∈ ds, isInsert3With e.code d.name = false) :
    pairedInsertsL (es1 ++ es2) ds = pairedInsertsL es1 ds := by
  rw [pairedInsertsL, pairedInsertsL, List.filter_append, List.length_append]
  have h2 : (es2.filter fun e => ds.any fun d =>
      isWalkInit d.init && isInsert3With e.code d.name) = [] := by
    rw [List.filter_eq_nil_iff]
    intro e he
    rw [Bool.not_eq_true, List.any_eq_false]
    intro d hd
    simp [h e he d hd]
  rw [h2]
  simp

/-- Decl pairing ignores an empty expression list. -/
theorem pairedDeclsL_nil (ds : List Declaration) : pairedDeclsL ds [] = 0 := by
  simp [pairedDeclsL]

/-- Appending the paired marker declaration and its insert increments both
pairing counts by one. -/
theorem paired_snoc (ds : List Declaration) (es : List Expr) (d : Declaration) (ins : Expr)
    (h1 : ∀ d2 ∈ ds, isInsert3With ins.code d2.name = false)
    (h2 : ∀ e ∈ es, isInsert3With e.code d.name = false)
    (h3 : isWalkInit d.init = true)
    (h4 : isInsert3With ins.code d.name = true) :
    pairedDeclsL (ds ++ [d]) (es ++ [ins]) = pairedDeclsL ds es + 1 ∧
    pairedInsertsL (es ++ [ins]) (ds ++ [d]) = pairedInsertsL es ds + 1 := by
  constructor
  · rw [pairedDeclsL, pairedDeclsL, List.filter_append, List.length_append]
    have hds : ∀ d2 ∈ ds, (isWalkInit d2.init &&
        (es ++ [ins]).any (fun e => isInsert3With e.code d2.name)) =
        (isWalkInit d2.init && es.any (fun e => isInsert3With e.code d2.name)) := by
      intro d2 hd2
      rw [List.any_append]
      simp [h1 d2 hd2]
    rw [List.filter_congr hds]
    have hdt : (isWalkInit d.init &&
        (es ++ [ins]).any (fun e => isInsert3With e.code d.name)) = true := by
      rw [List.any_append]
      simp [h3, h4]
    simp [List.filter, List.any_append, h3, h4]
  · rw [pairedInsertsL, pairedInsertsL, List.filter_append, List.length_append]
    have hes : ∀ e ∈ es, ((ds ++ [d]).any (fun d2 =>
        isWalkInit d2.init && isInsert3With e.code d2.name)) =
        (ds.any (fun d2 => isWalkInit d2.init && isInsert3With e.code d2.name)) := by
      intro e he
      rw [List.any_append]
      simp [h2 e he]
    rw [List.filter_congr hes]
    have hit : ((ds ++ [d]).any (fun d2 =>
        isWalkInit d2.init && isInsert3With ins.code d2.name)) = true := by
      rw [List.any_append]
      simp [h3, h4]
    simp [List.filter, List.any_append, h3, h4]

/-- Pairing splits across cross-consumption-free halves. -/
theorem paired_append (ds1 ds2 : List Declaration) (es1 es2 : List Expr)
    (h12 : ∀ e ∈ es1, ∀ d ∈ ds2, isInsert3With e.code d.name = false)
    (h21 : ∀ e ∈ es2, ∀ d ∈ ds1, isInsert3With e.code d.name = false) :
    pairedDeclsL (ds1 ++ ds2) (es1 ++ es2) = pairedDeclsL ds1 es1 + pairedDeclsL ds2 es2 ∧
    pairedInsertsL (es1 ++ es2) (ds1 ++ ds2) =
      pairedInsertsL es1 ds1 + pairedInsertsL es2 ds2 := by
  constructor
  · rw [pairedDeclsL, pairedDeclsL, pairedDeclsL, List.filter_append, List.length_append]
    congr 1
    · congr 1
      apply List.filter_congr
      intro d hd
      rw [List.any_append]
      have : es2.any (fun e => isInsert3With e.code d.name) = false := by
        rw [List.any_eq_false]
        intro e he
        simp [h21 e he d hd]
      rw [this, Bool.or_false]
    · congr 1
      apply List.filter_congr
      intro d hd
      rw [List.any_append]
      have : es1.any (fun e => isInsert3With e.code d.name) = false := by
        rw [List.any_eq_false]
        intro e he
        simp [h12 e he d hd]
      rw [this, Bool.false_or]
  · rw [pairedInsertsL, pairedInsertsL, pairedInsertsL, List.filter_append,
      List.length_append]
    congr 1
    · congr 1
      apply List.filter_congr
      intro e he
      rw [List.any_append]
      have : ds2.any (fun d => isWalkInit d.init && isInsert3With e.code d.name) = false := by
        rw [List.any_eq_false]
        intro d hd
        simp [h12 e he d hd]
      rw [this, Bool.or_false]
    · congr 1
      apply List.filter_congr
      intro e he
      rw [List.any_append]
      have : ds1.any (fun d => isWalkInit d.init && isInsert3With e.code d.name) = false := by
        rw [List.any_eq_false]
        intro d hd
        simp [h21 e he d hd]
      rw [this, Bool.false_or]

/-! ### Invariant step lemmas (C5) -/

/-- Unfolding of `pairedDecls`. -/
theorem pairedDecls_def (r : TransformResult) :
    pairedDecls r = pairedDeclsL r.declarations r.exprs := rfl

/-- Unfolding of `pairedInserts`. -/
theorem pairedInserts_def (r : TransformResult) :
    pairedInserts r = pairedInsertsL r.exprs r.declarations := rfl

/-- Helper registration does not draw uids. -/
theorem register_helper_uid (h : String) (ctx : BlockContext) :
    (register_helper h ctx).uid = ctx.uid := by
  rw [register_helper]
  split <;> rfl

/-- Delegate registration does not draw uids. -/
theorem register_delegate_uid (ev : String) (ctx : BlockContext) :
    (register_delegate ev ctx).uid = ctx.uid := by
  rw [register_delegate]
  split <;> rfl

/-- HTML-escaped text is free of angle brackets. -/
theorem escape_html_clean (s : String) (b : Bool) :
    ∀ c ∈ (escape_html s b).data, c ≠ '<' ∧ c ≠ '>' := by
  rw [escape_html]
  show ∀ c ∈ s.data.foldr (fun c acc => escapeChar b c ++ acc) [], _
  induction s.data with
  | nil => simp
  | cons x rest ih =>
    intro c hc
    rw [List.foldr_cons] at hc
    rcases List.mem_append.mp hc with hc | hc
    · rw [escapeChar] at hc
      split at hc
      · exact (by decide : ∀ x ∈ ("&amp;".data), x ≠ '<' ∧ x ≠ '>') c hc
      · split at hc
        · exact (by decide : ∀ x ∈ ("&lt;".data), x ≠ '<' ∧ x ≠ '>') c hc
        · split at hc
          · exact (by decide : ∀ x ∈ ("&gt;".data), x ≠ '<' ∧ x ≠ '>') c hc
          · split at hc
            · exact (by decide : ∀ x ∈ ("&quot;".data), x ≠ '<' ∧ x ≠ '>') c hc
            · rename_i hamp hlt hgt hq
              rw [List.mem_singleton.mp hc]
              exact ⟨hlt, hgt⟩
    · exact ih c hc

/-- Extending a result by clean template text and non-insert expressions
preserves the invariant. -/
theorem minv_ext (r r2 : TransformResult) (n0 n1 : Nat)
    (h : MInv r n0 n1)
    (htmpl : ∃ s, r2.template = r.template ++ s ∧ ∀ c ∈ s.data, c ≠ '<' ∧ c ≠ '>')
    (hdecl : r2.declarations = r.declarations)
    (hexprs : ∃ es, r2.exprs = r.exprs ++ es ∧
      ∀ e ∈ es, strStarts "insert(" e.code = false) :
    MInv r2 n0 n1 := by
  obtain ⟨s, hs, hsc⟩ := htmpl
  obtain ⟨es, hes, hesc⟩ := hexprs
  have hfalse : ∀ e ∈ es, ∀ d : Declaration, isInsert3With e.code d.name = false :=
    fun e he d => isInsert3With_false e.code d.name (hesc e he)
  constructor
  · rw [hs, String.data_append, countM_append_clean r.template.data s.data hsc,
      h.count_eq, pairedDecls_def r2, hdecl, hes,
      pairedDeclsL_exprs_ext r.declarations r.exprs es (fun e he d _ => hfalse e he d)]
    rfl
  · rw [pairedInserts_def r2, pairedDecls_def r2, hdecl, hes,
      pairedInsertsL_exprs_ext r.declarations r.exprs es (fun e he d _ => hfalse e he d),
      pairedDeclsL_exprs_ext r.declarations r.exprs es (fun e he d _ => hfalse e he d)]
    exact h.inserts_eq
  · rw [hdecl]
    exact h.decl_names
  · rw [hes]
    intro e he j hj
    rcases List.mem_append.mp he with he | he
    · exact h.expr_window e he j hj
    · rw [isInsert3With_false e.code (uidName "el$" j) (hesc e he)] at hj
      cases hj

/-- Appending a single-mode two-argument insert with a `$`-free value
preserves the invariant. -/
theorem minv_insert2 (r r2 : TransformResult) (pid v : String) (n0 n1 : Nat)
    (h : MInv r n0 n1)
    (hv : strHasChar '$' v = false)
    (ht : r2.template = r.template)
    (hdecl : r2.declarations = r.declarations)
    (hes : r2.exprs = r.exprs ++ [⟨"insert(" ++ pid ++ ", " ++ v ++ ")"⟩]) :
    MInv r2 n0 n1 := by
  have hfalse : ∀ d ∈ r.declarations,
      isInsert3With ("insert(" ++ pid ++ ", " ++ v ++ ")") d.name = false := by
    intro d hd
    obtain ⟨i, _, _, hni⟩ := h.decl_names d hd
    refine isInsert3With_false_ends _ _ ?_
    rw [hni]
    exact insert2_no_tail pid v (uidName "el$" i) hv (uidName_shape i)
  constructor
  · rw [ht, h.count_eq, pairedDecls_def r2, hdecl, hes,
      pairedDeclsL_exprs_ext r.declarations r.exprs _ (by
        intro e he d hd
        rw [List.mem_singleton.mp he]
        exact hfalse d hd)]
    rfl
  · rw [pairedInserts_def r2, pairedDecls_def r2, hdecl, hes,
      pairedInsertsL_exprs_ext r.declarations r.exprs _ (by
        intro e he d hd
        rw [List.mem_singleton.mp he]
        exact hfalse d hd),
      pairedDeclsL_exprs_ext r.declarations r.exprs _ (by
        intro e he d hd
        rw [List.mem_singleton.mp he]
        exact hfalse d hd)]
    exact h.inserts_eq
  · rw [hdecl]
    exact h.decl_names
  · rw [hes]
    intro e he j hj
    rcases List.mem_append.mp he with he | he
    · exact h.expr_window e he j hj
    · rw [List.mem_singleton.mp he] at hj
      rw [isInsert3With_false_ends _ _
        (insert2_no_tail pid v (uidName "el$" j) hv (uidName_shape j))] at hj
      cases hj

/-- The marker step: one `<!>`, one fresh walk declaration, one consuming
three-argument insert, all tied to the fresh uid. -/
theorem minv_marker (r r2 : TransformResult) (pid v : String) (ni n0 n1 : Nat)
    (h : MInv r n0 n1) (hn0 : n0 ≤ n1)
    (hpid : ∀ c ∈ pid.data, c ≠ '.')
    (ht : r2.template = r.template ++ "<!>")
    (hdecl : r2.declarations = r.declarations ++
      [⟨uidName "el$" n1, child_accessor pid ni⟩])
    (hes : r2.exprs = r.exprs ++
      [⟨"insert(" ++ pid ++ ", " ++ v ++ ", " ++ uidName "el$" n1 ++ ")"⟩]) :
    MInv r2 n0 (n1 + 1) := by
  have hfresh1 : ∀ d2 ∈ r.declarations,
      isInsert3With ("insert(" ++ pid ++ ", " ++ v ++ ", " ++ uidName "el$" n1 ++ ")")
        d2.name = false := by
    intro d2 hd2
    obtain ⟨i, _, hilt, hni⟩ := h.decl_names d2 hd2
    by_contra hcon
    rw [Bool.not_eq_false, isInsert3With] at hcon
    simp only [Bool.and_eq_true] at hcon
    have := insert_tail_unique _ _ _ (hni ▸ uidName_shape i) (uidName_shape n1)
      hcon.1.2 (insert3_ends pid v (uidName "el$" n1))
    rw [hni] at this
    exact absurd (uidName_inj i n1 this) (by omega)
  have hfresh2 : ∀ e ∈ r.exprs, isInsert3With e.code (uidName "el$" n1) = false := by
    intro e he
    by_contra hcon
    rw [Bool.not_eq_false] at hcon
    exact absurd (h.expr_window e he n1 hcon).2 (by omega)
  have hsnoc := paired_snoc r.declarations r.exprs
    ⟨uidName "el$" n1, child_accessor pid ni⟩
    ⟨"insert(" ++ pid ++ ", " ++ v ++ ", " ++ uidName "el$" n1 ++ ")"⟩
    hfresh1 hfresh2 (isWalkInit_child_accessor pid ni hpid)
    (isInsert3With_mk pid v (uidName "el$" n1))
  constructor
  · rw [ht, String.data_append]
    rw [show ("<!>" : String).data = ['<', '!', '>'] from rfl, countM_append_marker,
      h.count_eq, pairedDecls_def r2, hdecl, hes, hsnoc.1]
    rfl
  · rw [pairedInserts_def r2, pairedDecls_def r2, hdecl, hes, hsnoc.1, hsnoc.2]
    have hie : pairedInsertsL r.exprs r.declarations =
        pairedDeclsL r.declarations r.exprs := h.inserts_eq
    rw [hie]
  · rw [hdecl]
    intro d hd
    rcases List.mem_append.mp hd with hd | hd
    · obtain ⟨i, hi1, hi2, hi3⟩ := h.decl_names d hd
      exact ⟨i, hi1, by omega, hi3⟩
    · rw [List.mem_singleton.mp hd]
      exact ⟨n1, hn0, by omega, rfl⟩
  · rw [hes]
    intro e he j hj
    rcases List.mem_append.mp he with he | he
    · have := h.expr_window e he j hj
      omega
    · rw [List.mem_singleton.mp he] at hj
      rw [isInsert3With] at hj
      simp only [Bool.and_eq_true] at hj
      have := insert_tail_unique _ _ _ (uidName_shape j) (uidName_shape n1)
        hj.1.2 (insert3_ends pid v (uidName "el$" n1))
      have hjn := uidName_inj j n1 this
      omega

/-- Merging a child invariant over an adjacent uid window. -/
theorem minv_merge (r cres : TransformResult) (n0 n1 n2 : Nat)
    (h1 : MInv r n0 n1) (h2 : MInv cres n1 n2) (hle : n0 ≤ n1) (hle2 : n1 ≤ n2)
    (hstart : ∃ t, cres.template.data = '<' :: t) :
    MInv (merge_child r cres) n0 n2 := by
  have hT : (merge_child r cres).template = r.template ++ cres.template := rfl
  have hD : (merge_child r cres).declarations = r.declarations ++ cres.declarations := rfl
  have hE : (merge_child r cres).exprs = r.exprs ++ cres.exprs := rfl
  have cross12 : ∀ e ∈ r.exprs, ∀ d ∈ cres.declarations,
      isInsert3With e.code d.name = false := by
    intro e he d hd
    obtain ⟨i, hi1, _, hni⟩ := h2.decl_names d hd
    by_contra hcon
    rw [Bool.not_eq_false, hni] at hcon
    exact absurd (h1.expr_window e he i hcon).2 (by omega)
  have cross21 : ∀ e ∈ cres.exprs, ∀ d ∈ r.declarations,
      isInsert3With e.code d.name = false := by
    intro e he d hd
    obtain ⟨i, _, hi2, hni⟩ := h1.decl_names d hd
    by_contra hcon
    rw [Bool.not_eq_false, hni] at hcon
    exact absurd (h2.expr_window e he i hcon).1 (by omega)
  have happ := paired_append r.declarations cres.declarations r.exprs cres.exprs
    cross12 cross21
  constructor
  · obtain ⟨t, htd⟩ := hstart
    rw [hT, String.data_append, htd, countM_append_lt, ← htd, h1.count_eq, h2.count_eq,
      pairedDecls_def (merge_child r cres), hD, hE, happ.1]
    rfl
  · rw [pairedInserts_def (merge_child r cres), pairedDecls_def (merge_child r cres),
      hD, hE, happ.1, happ.2,
      show pairedInsertsL r.exprs r.declarations =
        pairedDeclsL r.declarations r.exprs from h1.inserts_eq,
      show pairedInsertsL cres.exprs cres.declarations =
        pairedDeclsL cres.declarations cres.exprs from h2.inserts_eq]
  · rw [hD]
    intro d hd
    rcases List.mem_append.mp hd with hd | hd
    · obtain ⟨i, hi1, hi2, hi3⟩ := h1.decl_names d hd
      exact ⟨i, hi1, by omega, hi3⟩
    · obtain ⟨i, hi1, hi2, hi3⟩ := h2.decl_names d hd
      exact ⟨i, by omega, hi2, hi3⟩
  · rw [hE]
    intro e he j hj
    rcases List.mem_append.mp he with he | he
    · have := h1.expr_window e he j hj
      exact ⟨this.1, by omega⟩
    · have := h2.expr_window e he j hj
      exact ⟨by omega, this.2⟩

/-! ### Attribute-phase shape lemmas (C5) -/

/-- `cleanStr` unpacked. -/
theorem cleanStr_spec (s : String) (h : cleanStr s = true) :
    ∀ c ∈ s.data, c ≠ '<' ∧ c ≠ '>' := by
  rw [cleanStr, List.all_eq_true] at h
  intro c hc
  have := h c hc
  simp at this
  exact this

/-- Dropping characters preserves `cleanStr`'s content property. -/
theorem cleanStr_drop (s : String) (n : Nat) (h : cleanStr s = true) :
    ∀ c ∈ (s.drop n).data, c ≠ '<' ∧ c ≠ '>' := by
  intro c hc
  rw [String.data_drop] at hc
  exact cleanStr_spec s h c (List.mem_of_mem_drop hc)

/-- Concatenation preserves angle-bracket freedom. -/
theorem clean_append (s t : String) (hs : ∀ c ∈ s.data, c ≠ '<' ∧ c ≠ '>')
    (ht : ∀ c ∈ t.data, c ≠ '<' ∧ c ≠ '>') :
    ∀ c ∈ (s ++ t).data, c ≠ '<' ∧ c ≠ '>' := by
  intro c hc
  rw [String.data_append] at hc
  rcases List.mem_append.mp hc with hc | hc
  exacts [hs c hc, ht c hc]

/-- `AttrStep` is reflexive. -/
theorem attrStep_refl (r : TransformResult) : AttrStep r r :=
  ⟨⟨"", by simp, by simp⟩, rfl, ⟨[], by simp, by simp⟩⟩

/-- `AttrStep` composes. -/
theorem attrStep_trans (r1 r2 r3 : TransformResult)
    (h1 : AttrStep r1 r2) (h2 : AttrStep r2 r3) : AttrStep r1 r3 := by
  obtain ⟨⟨s1, hs1, hc1⟩, hd1, ⟨e1, he1, hx1⟩⟩ := h1
  obtain ⟨⟨s2, hs2, hc2⟩, hd2, ⟨e2, he2, hx2⟩⟩ := h2
  refine ⟨⟨s1 ++ s2, ?_, clean_append s1 s2 hc1 hc2⟩, hd2.trans hd1,
    ⟨e1 ++ e2, ?_, ?_⟩⟩
  · rw [hs2, hs1, String.append_assoc]
  · rw [he2, he1, List.append_assoc]
  · intro e he
    rcases List.mem_append.mp he with he | he
    exacts [hx1 e he, hx2 e he]

/-- An invariant survives an attribute-phase step. -/
theorem minv_attrstep (r r2 : TransformResult) (n0 n1 : Nat)
    (h : MInv r n0 n1) (ha : AttrStep r r2) : MInv r2 n0 n1 :=
  minv_ext r r2 n0 n1 h ha.1 ha.2.1 ha.2.2

/-- A code starting with a non-`i` literal head is not an insert. -/
theorem starts_ne_insert_append (p x : String) (c : Char) (l : List Char)
    (hp : p.data = c :: l) (hc : c ≠ 'i') : strStarts "insert(" (p ++ x) = false := by
  apply not_starts_insert _ c (l ++ x.data) ?_ hc
  rw [String.data_append, hp]
  rfl

/-- A code starting with an element uid is not an insert. -/
theorem starts_uid_ne_insert (i : Nat) (x : String) :
    strStarts "insert(" (uidName "el$" i ++ x) = false := by
  obtain ⟨ds, hd, _⟩ := uidName_shape i
  exact starts_ne_insert_append _ x 'e' ('l' :: '$' :: ds) hd (by decide)

/-- An expression-only extension is an attribute-phase step. -/
theorem attrStep_exprs1 (r : TransformResult) (e : Expr)
    (he : strStarts "insert(" e.code = false) :
    AttrStep r { r with exprs := r.exprs ++ [e] } :=
  ⟨⟨"", by simp, by simp⟩, rfl, ⟨[e], rfl, by
    intro x hx
    rw [List.mem_singleton.mp hx]
    exact he⟩⟩

/-- A two-piece template extension is an attribute-phase step. -/
theorem attrStep_tmpl2 (r : TransformResult) (a b : String)
    (h : ∀ x ∈ (a ++ b).data, x ≠ '<' ∧ x ≠ '>') :
    AttrStep r { r with template := r.template ++ a ++ b } :=
  ⟨⟨a ++ b, by simp [String.append_assoc], h⟩, rfl, ⟨[], by simp, by simp⟩⟩

/-- A three-piece template extension is an attribute-phase step. -/
theorem attrStep_tmpl3 (r : TransformResult) (a b c : String)
    (h : ∀ x ∈ (a ++ (b ++ c)).data, x ≠ '<' ∧ x ≠ '>') :
    AttrStep r { r with template := r.template ++ a ++ b ++ c } :=
  ⟨⟨a ++ (b ++ c), by simp [String.append_assoc], h⟩, rfl, ⟨[], by simp, by simp⟩⟩

/-- A five-piece template extension is an attribute-phase step. -/
theorem attrStep_tmpl5 (r : TransformResult) (a b c d e : String)
    (h : ∀ x ∈ (a ++ (b ++ (c ++ (d ++ e)))).data, x ≠ '<' ∧ x ≠ '>') :
    AttrStep r { r with template := r.template ++ a ++ b ++ c ++ d ++ e } :=
  ⟨⟨a ++ (b ++ (c ++ (d ++ e))), by simp [String.append_assoc], h⟩, rfl,
    ⟨[], by simp, by simp⟩⟩

/-- The ref handler performs an attribute-phase step. -/
theorem attrstep_ref (attr : JSXAttribute) (i : Nat) (r : TransformResult) :
    AttrStep r (transform_ref attr (uidName "el$" i) r) := by
  rcases attr with ⟨n, v⟩
  rcases v with _ | val
  · exact attrStep_refl r
  rcases val with _ | oe | _
  · exact attrStep_refl r
  · rcases oe with _ | e
    · exact attrStep_refl r
    · by_cases hc : (containsSub "=>" (expr_to_string e) ||
        strStarts "function" (expr_to_string e)) = true
      · rw [show transform_ref ⟨n, some (.expressionContainer (some e))⟩
            (uidName "el$" i) r = { r with exprs := r.exprs ++
              [⟨"(" ++ expr_to_string e ++ ")(" ++ uidName "el$" i ++ ")"⟩] } from by
          simp [transform_ref, hc]]
        exact attrStep_exprs1 r _ (by
          simp only [String.append_assoc]
          exact starts_ne_insert_append "(" _ '(' [] rfl (by decide))
      · rw [show transform_ref ⟨n, some (.expressionContainer (some e))⟩
            (uidName "el$" i) r = { r with exprs := r.exprs ++
              [⟨"typeof " ++ expr_to_string e ++ " === \"function\" ? " ++
                expr_to_string e ++ "(" ++ uidName "el$" i ++ ") : " ++
                expr_to_string e ++ " = " ++ uidName "el$" i⟩] } from by
          simp [transform_ref, hc]]
        exact attrStep_exprs1 r _ (by
          simp only [String.append_assoc]
          exact starts_ne_insert_append "typeof " _ 't' _ rfl (by decide))
  · exact attrStep_refl r

/-- The event handler performs an attribute-phase step without drawing uids. -/
theorem attrstep_event (attr : JSXAttribute) (key : String) (i : Nat)
    (r : TransformResult) (ctx : BlockContext) (options : TransformOptions) :
    AttrStep r (transform_event attr key (uidName "el$" i) r ctx options).1 ∧
    (transform_event attr key (uidName "el$" i) r ctx options).2.uid = ctx.uid := by
  rw [transform_event_eq]
  constructor
  · split <;> split
    · exact attrStep_exprs1 r _ (by
        simp only [String.append_assoc]
        exact starts_uid_ne_insert i _)
    · exact attrStep_exprs1 r _ (by
        simp only [String.append_assoc]
        exact starts_ne_insert_append "addEventListener(" _ 'a' _ rfl (by decide))
    · exact attrStep_exprs1 r _ (by
        simp only [String.append_assoc]
        exact starts_uid_ne_insert i _)
    · exact attrStep_exprs1 r _ (by
        simp only [String.append_assoc]
        exact starts_ne_insert_append "addEventListener(" _ 'a' _ rfl (by decide))
  · split <;> split
    · exact register_delegate_uid _ ctx
    · exact register_helper_uid _ ctx
    · exact register_delegate_uid _ ctx
    · exact register_helper_uid _ ctx

/-- The directive handler performs an attribute-phase step without drawing
uids. -/
theorem attrstep_directive (attr : JSXAttribute) (key : String) (i : Nat)
    (r : TransformResult) (ctx : BlockContext) :
    AttrStep r (transform_directive attr key (uidName "el$" i) r ctx).1 ∧
    (transform_directive attr key (uidName "el$" i) r ctx).2.uid = ctx.uid := by
  constructor
  · exact attrStep_exprs1 r _ (by
      simp only [String.append_assoc]
      exact starts_ne_insert_append "use(" _ 'u' _ rfl (by decide))
  · exact register_helper_uid _ ctx

/-- The prop handler performs an attribute-phase step without drawing uids. -/
theorem attrstep_prop (attr : JSXAttribute) (key : String) (i : Nat)
    (r : TransformResult) (ctx : BlockContext) :
    AttrStep r (transform_prop attr key (uidName "el$" i) r ctx).1 ∧
    (transform_prop attr key (uidName "el$" i) r ctx).2.uid = ctx.uid := by
  rcases attr with ⟨n, v⟩
  rcases v with _ | val
  · exact ⟨attrStep_refl r, rfl⟩
  rcases val with _ | oe | _
  · exact ⟨attrStep_refl r, rfl⟩
  · rcases oe with _ | e
    · exact ⟨attrStep_refl r, rfl⟩
    · by_cases hd : is_dynamic e = true
      · rw [show transform_prop ⟨n, some (.expressionContainer (some e))⟩ key
            (uidName "el$" i) r ctx = ({ r with exprs := r.exprs ++
              [⟨"effect(() => " ++ uidName "el$" i ++ "." ++ key.drop 5 ++ " = " ++
                expr_to_string e ++ ")"⟩] }, register_helper "effect" ctx) from by
          simp [transform_prop, hd]]
        exact ⟨attrStep_exprs1 r _ (by
          simp only [String.append_assoc]
          exact starts_ne_insert_append "effect(() => " _ 'e' _ rfl (by decide)),
          register_helper_uid _ ctx⟩
      · rw [show transform_prop ⟨n, some (.expressionContainer (some e))⟩ key
            (uidName "el$" i) r ctx = ({ r with exprs := r.exprs ++
              [⟨uidName "el$" i ++ "." ++ key.drop 5 ++ " = " ++
                expr_to_string e⟩] }, ctx) from by
          simp [transform_prop, hd]]
        exact ⟨attrStep_exprs1 r _ (by
          simp only [String.append_assoc]
          exact starts_uid_ne_insert i _), rfl⟩
  · exact ⟨attrStep_refl r, rfl⟩

/-- The `attr:` handler performs an attribute-phase step without drawing
uids. -/
theorem attrstep_attr (attr : JSXAttribute) (key : String) (i : Nat)
    (r : TransformResult) (ctx : BlockContext) (hk : cleanStr key = true) :
    AttrStep r (transform_attr attr key (uidName "el$" i) r ctx).1 ∧
    (transform_attr attr key (uidName "el$" i) r ctx).2.uid = ctx.uid := by
  rcases attr with ⟨n, v⟩
  rcases v with _ | val
  · exact ⟨attrStep_refl r, rfl⟩
  rcases val with lit | oe | _
  · refine ⟨attrStep_tmpl5 r " " (key.drop 5) "=\"" (escape_html lit true) "\"" ?_, rfl⟩
    refine clean_append _ _ (by decide) (clean_append _ _ ?_ (clean_append _ _ (by decide)
      (clean_append _ _ (escape_html_clean lit true) (by decide))))
    intro c hc
    exact cleanStr_drop key 5 hk c hc
  · rcases oe with _ | e
    · exact ⟨attrStep_refl r, rfl⟩
    · rw [show transform_attr ⟨n, some (.expressionContainer (some e))⟩ key
          (uidName "el$" i) r ctx = ({ r with exprs := r.exprs ++
            [⟨"effect(() => " ++ uidName "el$" i ++ ".setAttribute(\"" ++ key.drop 5 ++
              "\", " ++ expr_to_string e ++ "))"⟩] },
            register_helper "setAttribute" (register_helper "effect" ctx)) from by
        simp [transform_attr]]
      exact ⟨attrStep_exprs1 r _ (by
        simp only [String.append_assoc]
        exact starts_ne_insert_append "effect(() => " _ 'e' _ rfl (by decide)),
        by rw [register_helper_uid, register_helper_uid]⟩
  · exact ⟨attrStep_refl r, rfl⟩

/-- The style fallback performs an attribute-phase step without drawing
uids. -/
theorem attrstep_style_runtime (expr : Expression) (elem_id : Option String)
    (r : TransformResult) (ctx : BlockContext) (out : TransformResult × BlockContext)
    (h : transform_style_runtime expr elem_id r ctx = .ok out) :
    AttrStep r out.1 ∧ out.2.uid = ctx.uid := by
  unfold transform_style_runtime at h
  split at h
  · cases h
  · split at h
    · cases h
      exact ⟨attrStep_exprs1 r _ (by
        simp only [String.append_assoc]
        exact starts_ne_insert_append "effect(() => style(" _ 'e' _ rfl (by decide)),
        by rw [register_helper_uid, register_helper_uid]⟩
    · cases h
      exact ⟨attrStep_exprs1 r _ (by
        simp only [String.append_assoc]
        exact starts_ne_insert_append "style(" _ 's' _ rfl (by decide)),
        register_helper_uid _ ctx⟩

/-- The style handler performs an attribute-phase step without drawing
uids. -/
theorem attrstep_style (attr : JSXAttribute) (elem_id : Option String)
    (r : TransformResult) (ctx : BlockContext) (out : TransformResult × BlockContext)
    (h : transform_style attr elem_id r ctx = .ok out)
    (hclean : cleanAttrItem (.attributeItem attr) = true) :
    AttrStep r out.1 ∧ out.2.uid = ctx.uid := by
  unfold transform_style at h
  split at h
  · cases h
    refine ⟨attrStep_tmpl3 r " style=\"" _ "\"" ?_, rfl⟩
    exact clean_append _ _ (by decide)
      (clean_append _ _ (escape_html_clean _ true) (by decide))
  · rename_i expr hveq
    split at h
    · rename_i props
      split at h
      · rename_i s hfold
        cases h
        refine ⟨attrStep_tmpl3 r " style=\"" s "\"" ?_, rfl⟩
        have hs : cleanStr s = true := by
          rcases attr with ⟨n2, v2⟩
          have hv2 : v2 = some (.expressionContainer (some (.objectExpr props))) := hveq
          subst hv2
          simp only [cleanAttrItem] at hclean
          rw [hfold, Bool.and_eq_true] at hclean
          exact hclean.2
        exact clean_append _ _ (by decide)
          (clean_append _ _ (cleanStr_spec s hs) (by decide))
      · exact attrstep_style_runtime _ _ _ _ _ h
    · exact attrstep_style_runtime _ _ _ _ _ h
  · cases h
    exact ⟨attrStep_refl r, rfl⟩

/-- The inner-content handler performs an attribute-phase step without
drawing uids. -/
theorem attrstep_inner (attr : JSXAttribute) (key : String) (i : Nat)
    (r : TransformResult) (ctx : BlockContext) :
    AttrStep r (transform_inner_content attr key (uidName "el$" i) r ctx).1 ∧
    (transform_inner_content attr key (uidName "el$" i) r ctx).2.uid = ctx.uid := by
  rcases attr with ⟨n, v⟩
  rcases v with _ | val
  · exact ⟨attrStep_refl r, rfl⟩
  rcases val with lit | oe | _
  · by_cases hk : (key == "innerHTML") = true
    · rw [show transform_inner_content ⟨n, some (.stringLiteral lit)⟩ key
          (uidName "el$" i) r ctx = ({ r with exprs := r.exprs ++
            [⟨uidName "el$" i ++ ".innerHTML = \"" ++ escape_html lit false ++ "\""⟩] },
            ctx) from by simp [transform_inner_content, hk]]
      exact ⟨attrStep_exprs1 r _ (by
        simp only [String.append_assoc]
        exact starts_uid_ne_insert i _), rfl⟩
    · rw [show transform_inner_content ⟨n, some (.stringLiteral lit)⟩ key
          (uidName "el$" i) r ctx = (r, ctx) from by
        simp [transform_inner_content, hk]]
      exact ⟨attrStep_refl r, rfl⟩
  · rcases oe with _ | e
    · exact ⟨attrStep_refl r, rfl⟩
    · by_cases hd : is_dynamic e = true
      · rw [show transform_inner_content ⟨n, some (.expressionContainer (some e))⟩ key
            (uidName "el$" i) r ctx = ({ r with exprs := r.exprs ++
              [⟨"effect(() => " ++ uidName "el$" i ++ "." ++ key ++ " = " ++
                expr_to_string e ++ ")"⟩] }, register_helper "effect" ctx) from by
          simp [transform_inner_content, hd]]
        exact ⟨attrStep_exprs1 r _ (by
          simp only [String.append_assoc]
          exact starts_ne_insert_append "effect(() => " _ 'e' _ rfl (by decide)),
          register_helper_uid _ ctx⟩
      · rw [show transform_inner_content ⟨n, some (.expressionContainer (some e))⟩ key
            (uidName "el$" i) r ctx = ({ r with exprs := r.exprs ++
              [⟨uidName "el$" i ++ "." ++ key ++ " = " ++ expr_to_string e⟩] },
              ctx) from by simp [transform_inner_content, hd]]
        exact ⟨attrStep_exprs1 r _ (by
          simp only [String.append_assoc]
          exact starts_uid_ne_insert i _), rfl⟩
  · exact ⟨attrStep_refl r, rfl⟩

/-- The alias table maps clean keys to clean names. -/
theorem alias_clean (key : String) (hk : cleanStr key = true) :
    ∀ c ∈ ((ALIASES.lookup key).getD key).data, c ≠ '<' ∧ c ≠ '>' := by
  rw [ALIASES]
  simp only [List.lookup]
  split
  · exact (by decide : ∀ c ∈ ("class".data), c ≠ '<' ∧ c ≠ '>')
  · split
    · exact (by decide : ∀ c ∈ ("for".data), c ≠ '<' ∧ c ≠ '>')
    · exact cleanStr_spec key hk

/-! ### Attribute router and loop shape (C5) -/

/-- A dynamics-only extension is an attribute-phase step. -/
theorem attrStep_dyn (r : TransformResult) (dyn : List DynamicBinding) :
    AttrStep r { r with dynamics := dyn } :=
  ⟨⟨"", by simp, by simp⟩, rfl, ⟨[], by simp, by simp⟩⟩

/-- The attribute router performs an attribute-phase step without drawing
uids. -/
theorem attrstep_attribute (attr : JSXAttribute) (elem_id : Option String)
    (r : TransformResult) (ctx : BlockContext) (options : TransformOptions)
    (out : TransformResult × BlockContext)
    (h : transform_attribute attr elem_id r ctx options = .ok out)
    (hclean : cleanAttrItem (.attributeItem attr) = true)
    (helem : ∀ eid, elem_id = some eid → ∃ k, eid = uidName "el$" k) :
    AttrStep r out.1 ∧ out.2.uid = ctx.uid := by
  have hck : cleanStr (get_attr_name attr.name) = true := by
    rcases attr with ⟨n2, v2⟩
    simp only [cleanAttrItem, Bool.and_eq_true] at hclean
    exact hclean.1
  unfold transform_attribute at h
  simp only [] at h
  repeat' split at h
  all_goals first
    | exact attrstep_style attr elem_id r ctx out h hclean
    | (cases h <;> (obtain ⟨k, hk⟩ := helem _ rfl
                    subst hk
                    first
                      | exact ⟨attrstep_ref attr k r, rfl⟩
                      | exact attrstep_event attr _ k r ctx options
                      | exact attrstep_directive attr _ k r ctx
                      | exact attrstep_prop attr _ k r ctx
                      | exact attrstep_attr attr _ k r ctx hck
                      | exact attrstep_inner attr _ k r ctx))
    | (cases h <;> (rename_i lit hveq
                    exact ⟨attrStep_tmpl5 r " "
                      ((ALIASES.lookup (get_attr_name attr.name)).getD
                        (get_attr_name attr.name)) "=\"" (escape_html lit true) "\""
                      (clean_append _ _ (by decide) (clean_append _ _
                        (alias_clean _ hck) (clean_append _ _ (by decide)
                          (clean_append _ _ (escape_html_clean lit true)
                            (by decide))))), rfl⟩))
    | (cases h <;> exact ⟨attrStep_dyn r _, rfl⟩)
    | (cases h <;> exact ⟨attrStep_tmpl2 r " " _
        (clean_append _ _ (by decide) (cleanStr_spec _ hck)), rfl⟩)
    | (cases h <;> exact ⟨attrStep_refl r, rfl⟩)

/-- The attribute loop performs an attribute-phase step without drawing
uids. -/
theorem attrstep_go (element : JSXElement) (elem_id : Option String)
    (options : TransformOptions)
    (helem : ∀ eid, elem_id = some eid → ∃ k, eid = uidName "el$" k) :
    ∀ (attrs : List JSXAttributeItem) (r : TransformResult) (ctx : BlockContext)
      (out : TransformResult × BlockContext),
      transform_attributes_go element elem_id options attrs r ctx = .ok out →
      attrs.all cleanAttrItem = true →
      AttrStep r out.1 ∧ out.2.uid = ctx.uid
  | [], r, ctx, out, h, _ => by
    cases h
    exact ⟨attrStep_refl r, rfl⟩
  | .attributeItem attr :: rest, r, ctx, out, h, hcl => by
    rw [List.all_cons, Bool.and_eq_true] at hcl
    unfold transform_attributes_go at h
    split at h
    · cases h
    · rename_i r1 ctx1 hr1
      obtain ⟨ha1, hu1⟩ := attrstep_attribute attr elem_id r ctx options (r1, ctx1)
        hr1 hcl.1 helem
      obtain ⟨ha2, hu2⟩ := attrstep_go element elem_id options helem rest r1 ctx1 out
        h hcl.2
      exact ⟨attrStep_trans _ _ _ ha1 ha2, by rw [hu2]; exact hu1⟩
  | .spreadAttribute arg :: rest, r, ctx, out, h, hcl => by
    rw [List.all_cons, Bool.and_eq_true] at hcl
    unfold transform_attributes_go at h
    split at h
    · cases h
    · try simp only [] at h
      obtain ⟨ha2, hu2⟩ := attrstep_go element _ options helem rest _ _ out
        h hcl.2
      constructor
      · refine attrStep_trans _ _ _ ?_ ha2
        exact attrStep_exprs1 r _ (by
          simp only [String.append_assoc]
          exact starts_ne_insert_append "spread(" _ 's' _ rfl (by decide))
      · rw [hu2, register_helper_uid]

/-- The attribute phase performs an attribute-phase step without drawing
uids. -/
theorem attrstep_attributes (element : JSXElement) (r : TransformResult)
    (ctx : BlockContext) (options : TransformOptions)
    (out : TransformResult × BlockContext)
    (h : transform_attributes element r ctx options = .ok out)
    (hcl : element.attributes.all cleanAttrItem = true)
    (helem : ∀ eid, r.id = some eid → ∃ k, eid = uidName "el$" k) :
    AttrStep r out.1 ∧ out.2.uid = ctx.uid :=
  attrstep_go element r.id options helem element.attributes r ctx out h hcl

/-! ### Support facts for the child iteration (C5) -/

/-- Character search stays false over append. -/
theorem strHasChar_append_false (c : Char) (s t : String)
    (hs : strHasChar c s = false) (ht : strHasChar c t = false) :
    strHasChar c (s ++ t) = false := by
  rw [← Bool.not_eq_true, strHasChar_iff, String.data_append]
  intro hmem
  rcases List.mem_append.mp hmem with hm | hm
  · rw [← strHasChar_iff, hs] at hm
    cases hm
  · rw [← strHasChar_iff, ht] at hm
    cases hm

/-- An invariant for a result with no declarations, no expressions and a
marker-free template. -/
theorem minv_empty (r : TransformResult) (n0 n1 : Nat) (hd : r.declarations = [])
    (he : r.exprs = []) (ht : countM r.template.data = 0) : MInv r n0 n1 := by
  constructor
  · rw [ht, pairedDecls_def, he, pairedDeclsL_nil]
  · rw [pairedInserts_def, pairedDecls_def, he, hd, pairedDeclsL_nil]
    rfl
  · rw [hd]
    simp
  · rw [he]
    simp

/-- An invariant for a result holding one unconsumed walker declaration at
the window base. -/
theorem minv_id_decl (r : TransformResult) (n0 : Nat) (d : Declaration)
    (hd : r.declarations = [d]) (hn : d.name = uidName "el$" n0)
    (he : r.exprs = []) (ht : countM r.template.data = 0) : MInv r n0 (n0 + 1) := by
  constructor
  · rw [ht, pairedDecls_def, he, pairedDeclsL_nil]
  · rw [pairedInserts_def, pairedDecls_def, he, pairedDeclsL_nil]
    rfl
  · rw [hd]
    intro d2 hd2
    rw [List.mem_singleton.mp hd2]
    exact ⟨n0, le_refl n0, by omega, hn⟩
  · rw [he]
    simp

/-- Template-only rewrites with equal marker counts preserve the invariant. -/
theorem minv_retmpl (r r2 : TransformResult) (n0 n1 : Nat) (h : MInv r n0 n1)
    (hd : r2.declarations = r.declarations) (he : r2.exprs = r.exprs)
    (hc : countM r2.template.data = countM r.template.data) : MInv r2 n0 n1 := by
  constructor
  · rw [hc, h.count_eq, pairedDecls_def r2, hd, he]
    rfl
  · rw [pairedInserts_def, pairedDecls_def, hd, he]
    exact h.inserts_eq
  · rw [hd]
    exact h.decl_names
  · rw [he]
    exact h.expr_window

/-- An open tag followed by `<`-free text holds no marker. -/
theorem countM_lt_tag (tag : String) (s : List Char) (hc : cleanTag tag = true)
    (hs : ∀ c ∈ s, c ≠ '<') : countM ('<' :: (tag.data ++ s)) = 0 := by
  rw [cleanTag, Bool.and_eq_true, List.all_eq_true] at hc
  obtain ⟨hne, hall⟩ := hc
  have hall2 : ∀ c ∈ tag.data, c ≠ '<' ∧ c ≠ '!' ∧ c ≠ '>' := by
    intro c hcm
    have := hall c hcm
    simp at this
    exact ⟨this.1.1, this.1.2, this.2⟩
  rcases htag : tag.data with _ | ⟨t0, trest⟩
  · rw [htag] at hne
    simp [List.isEmpty] at hne
  · have h0 := hall2 t0 (by rw [htag]; exact List.mem_cons_self t0 trest)
    refine countM_lt_head t0 (trest ++ s) h0.2.1 h0.1 ?_
    intro c hcm
    rcases List.mem_append.mp hcm with hm | hm
    · exact (hall2 c (by rw [htag]; exact List.mem_cons_of_mem t0 hm)).1
    · exact hs c hm

/-- The closing tag adds no marker. -/
theorem countM_closing (t tag : String) (hc : cleanTag tag = true) :
    countM ((t ++ "</" ++ tag ++ ">").data) = countM t.data := by
  rw [String.data_append, String.data_append, String.data_append,
    List.append_assoc, List.append_assoc]
  rw [show ("</" : String).data ++ (tag.data ++ (">" : String).data) =
      '<' :: ('/' :: (tag.data ++ [('>' : Char)])) from rfl]
  rw [countM_append_lt]
  have hz : countM ('<' :: '/' :: (tag.data ++ ['>'])) = 0 := by
    refine countM_lt_head '/' (tag.data ++ ['>']) (by decide) (by decide) ?_
    rw [cleanTag, Bool.and_eq_true, List.all_eq_true] at hc
    intro c hcm
    rcases List.mem_append.mp hcm with hm | hm
    · have := hc.2 c hm
      simp at this
      exact this.1.1
    · rw [List.mem_singleton.mp hm]
      decide
  rw [hz]
  omega

/-- The element-id issuing step establishes the invariant on the fresh uid
window, keeps the template, and issues only uid-shaped ids. -/
theorem minv_id_step (info : TransformInfo) (ctx : BlockContext) (needs : Bool)
    (r0 : TransformResult) (hd : r0.declarations = []) (he : r0.exprs = [])
    (hid0 : r0.id = none) (ht0 : countM r0.template.data = 0) :
    MInv (element_id_step info ctx needs r0).1 ctx.uid
      (element_id_step info ctx needs r0).2.uid ∧
    ctx.uid ≤ (element_id_step info ctx needs r0).2.uid ∧
    (∀ eid, (element_id_step info ctx needs r0).1.id = some eid →
      ∃ k, eid = uidName "el$" k) ∧
    (element_id_step info ctx needs r0).1.template = r0.template := by
  rw [element_id_step]
  split
  · simp only [generate_uid]
    split
    · split
      · rename_i root_id hroot
        refine ⟨minv_id_decl _ ctx.uid ⟨uidName "el$" ctx.uid,
            info.path.foldl (fun acc step => acc ++ "." ++ step) root_id⟩
            (by simp [hd]) rfl he ht0, by omega, ?_, rfl⟩
        intro eid heq
        exact ⟨ctx.uid, (Option.some.inj heq).symm⟩
      · refine ⟨minv_empty _ _ _ hd he ht0, by omega, ?_, rfl⟩
        intro eid heq
        exact ⟨ctx.uid, (Option.some.inj heq).symm⟩
    · refine ⟨minv_empty _ _ _ hd he ht0, by omega, ?_, rfl⟩
      intro eid heq
      exact ⟨ctx.uid, (Option.some.inj heq).symm⟩
  · refine ⟨minv_empty _ _ _ hd he ht0, le_refl _, ?_, rfl⟩
    intro eid heq
    rw [hid0] at heq
    cases heq

/-! ### The marker invariant, by mutual induction (C5) -/

/-- Composition of template growth. -/
theorem grow_trans (t1 t2 t3 a b : String)
    (h1 : t2 = t1 ++ a) (h2 : t3 = t2 ++ b) : t3 = t1 ++ (a ++ b) := by
  rw [h2, h1, String.append_assoc]

/-- Appending to a `<`-headed string keeps the head. -/
theorem data_starts_lt (u v : String) (w : List Char) (hu : u.data = '<' :: w) :
    ∃ t, (u ++ v).data = '<' :: t :=
  ⟨w ++ v.data, by rw [String.data_append, hu]; rfl⟩

mutual
/-- A successful element lowering of a well-formed element satisfies the
marker invariant on its drawn uid window, and its template opens with `<`. -/
theorem te_minv (tc : JSXChild → Option TransformResult) (options : TransformOptions) :
    ∀ (e : JSXElement) (tag : String) (info : TransformInfo) (ctx : BlockContext)
      (out : TransformResult × BlockContext),
      transform_element tc options e tag info ctx = .ok out →
      cleanTag tag = true → cleanElement e = true → tcClean tc →
      MInv out.1 ctx.uid out.2.uid ∧ ctx.uid ≤ out.2.uid ∧
        ∃ t, out.1.template.data = '<' :: t
  | .mk ename attrs children, tag, info, ctx, out, h, htag, hce, htc => by
    have hce2 : attrs.all cleanAttrItem = true ∧ cleanChildren children = true := by
      rw [show cleanElement (.mk ename attrs children) =
        (attrs.all cleanAttrItem && cleanChildren children) from rfl,
        Bool.and_eq_true] at hce
      exact hce
    rw [transform_element] at h
    rcases hstep : element_id_step info ctx
        (element_needs_runtime_access (JSXElement.mk ename attrs children))
        { tag_name := some tag, is_svg := is_svg_element tag,
          has_custom_element := strHasChar '-' tag } with ⟨rid, ctx1⟩
    rw [hstep] at h
    try simp only [] at h
    have hids := minv_id_step info ctx
      (element_needs_runtime_access (JSXElement.mk ename attrs children))
      { tag_name := some tag, is_svg := is_svg_element tag,
        has_custom_element := strHasChar '-' tag } rfl rfl rfl rfl
    rw [hstep] at hids
    obtain ⟨hminv1, hle1, hidshape, htmpl1⟩ := hids
    have hcount3 : countM (("<" ++ tag).data) = 0 := by
      rw [String.data_append]
      have := countM_lt_tag tag [] htag (by simp)
      simpa using this
    have hminv3 : MInv { rid with
        template := "<" ++ tag,
        template_with_closing_tags := "<" ++ tag } ctx.uid ctx1.uid := by
      refine minv_retmpl rid _ ctx.uid ctx1.uid hminv1 rfl rfl ?_
      have htmpl1b : rid.template = "" := htmpl1
      show countM (("<" ++ tag).data) = countM rid.template.data
      rw [hcount3, htmpl1b]
      rfl
    split at h
    · cases h
    · rename_i r4 ctx2 hattrs
      try simp only [] at h
      obtain ⟨hast, huid2⟩ := attrstep_attributes
        (JSXElement.mk ename attrs children) _ ctx1 options (r4, ctx2) hattrs hce2.1
        (fun eid heq => hidshape eid heq)
      have hminv4 : MInv r4 ctx.uid ctx1.uid := minv_attrstep _ _ _ _ hminv3 hast
      obtain ⟨S, hS, hSc⟩ := hast.1
      have htmpl4 : r4.template = "<" ++ tag ++ S := by
        rw [hS]
      have hcount4 : countM r4.template.data = 0 := by
        rw [htmpl4, String.data_append, String.data_append, List.append_assoc]
        rw [show ("<" : String).data ++ (tag.data ++ S.data) =
          '<' :: (tag.data ++ S.data) from rfl]
        exact countM_lt_tag tag S.data htag (fun c hc => (hSc c hc).1)
      have hid4 : r4.id = rid.id :=
        transform_attributes_id (JSXElement.mk ename attrs children)
          { rid with
            template := "<" ++ tag,
            template_with_closing_tags := "<" ++ tag } ctx1 options
          (r4, ctx2) hattrs
      have hcount5 : countM ((r4.template ++ ">").data) = 0 := by
        rw [String.data_append, htmpl4, String.data_append, String.data_append,
          List.append_assoc, List.append_assoc]
        rw [show ("<" : String).data ++ (tag.data ++ (S.data ++ (">" : String).data)) =
          '<' :: (tag.data ++ (S.data ++ (">" : String).data)) from rfl]
        refine countM_lt_tag tag _ htag ?_
        intro c hc
        rcases List.mem_append.mp hc with hc | hc
        · exact (hSc c hc).1
        · rw [show ((">" : String).data) = ['>'] from rfl] at hc
          rw [List.mem_singleton.mp hc]
          decide
      have hminv5 : MInv { r4 with
          template := r4.template ++ ">",
          template_with_closing_tags := r4.template_with_closing_tags ++ ">" }
          ctx.uid ctx1.uid := by
        refine minv_retmpl r4 _ ctx.uid ctx1.uid hminv4 rfl rfl ?_
        rw [hcount4, hcount5]
      have hstart5 : ∃ t, (({ r4 with
          template := r4.template ++ ">",
          template_with_closing_tags := r4.template_with_closing_tags ++ ">" } :
            TransformResult).template).data = '<' :: t := by
        refine ⟨tag.data ++ (S.data ++ (">" : String).data), ?_⟩
        show (r4.template ++ ">").data = _
        rw [String.data_append, htmpl4, String.data_append, String.data_append,
          List.append_assoc, List.append_assoc]
        rfl
      split at h
      · cases h
        refine ⟨by rw [huid2]; exact hminv5, ?_, hstart5⟩
        have h1 : ctx.uid ≤ ctx1.uid := hle1
        have h2 : ctx2.uid = ctx1.uid := huid2
        show ctx.uid ≤ ctx2.uid
        omega
      · split at h
        · cases h
        · rename_i r6 ni6 lwt6 ctx3 hch
          cases h
          obtain ⟨hminv6, hle6, hgrow6⟩ := tcl_minv tc options children
            { r4 with
              template := r4.template ++ ">",
              template_with_closing_tags := r4.template_with_closing_tags ++ ">" }
            { info with
              root_id := r4.id.or info.root_id,
              path := if r4.id.isSome then [] else info.path,
              top_level := false } ctx2 0 false
            (is_single_dynamic_child children) ctx.uid (r6, ni6, lwt6, ctx3) hch
            hce2.2 htc
            (fun p hp => hidshape p (by rw [← hid4]; exact hp))
            (by rw [huid2]; exact hminv5)
            (by
              have h1 : ctx.uid ≤ ctx1.uid := hle1
              have h2 : ctx2.uid = ctx1.uid := huid2
              omega)
          have hcfin : countM ((r6.template ++ "</" ++ tag ++ ">").data) =
              countM r6.template.data := countM_closing r6.template tag htag
          refine ⟨minv_retmpl r6 _ ctx.uid ctx3.uid hminv6 rfl rfl hcfin, ?_, ?_⟩
          · have h1 : ctx.uid ≤ ctx1.uid := hle1
            have h2 : ctx2.uid = ctx1.uid := huid2
            have h3 : ctx2.uid ≤ ctx3.uid := hle6
            show ctx.uid ≤ ctx3.uid
            omega
          obtain ⟨s6, hs6⟩ := hgrow6
          obtain ⟨t5, ht5⟩ := hstart5
          have hr6d : ∃ t, r6.template.data = '<' :: t := by
            rw [hs6]
            exact data_starts_lt _ s6 t5 ht5
          obtain ⟨t6, ht6⟩ := hr6d
          obtain ⟨t7, ht7⟩ := data_starts_lt r6.template "</" t6 ht6
          obtain ⟨t8, ht8⟩ := data_starts_lt (r6.template ++ "</") tag t7 ht7
          exact data_starts_lt (r6.template ++ "</" ++ tag) ">" t8 ht8

termination_by e => sizeOf e

/-- The child iteration preserves the marker invariant over a growing uid
window, and only appends to the template. -/
theorem tcl_minv (tc : JSXChild → Option TransformResult) (options : TransformOptions) :
    ∀ (cs : List JSXChild) (r : TransformResult) (info : TransformInfo)
      (ctx : BlockContext) (ni : Nat) (lwt single : Bool) (n0 : Nat)
      (out : TransformResult × Nat × Bool × BlockContext),
      transform_children_list tc options cs r info ctx ni lwt single = .ok out →
      cleanChildren cs = true → tcClean tc →
      (∀ p, r.id = some p → ∃ k, p = uidName "el$" k) →
      MInv r n0 ctx.uid → n0 ≤ ctx.uid →
      MInv out.1 n0 out.2.2.2.uid ∧ ctx.uid ≤ out.2.2.2.uid ∧
        ∃ s, out.1.template = r.template ++ s
  | [], r, info, ctx, ni, lwt, single, n0, out, h, hcl, htc, hid, hminv, hn0 => by
    cases h
    exact ⟨hminv, le_refl _, ⟨"", by simp⟩⟩
  | .text t :: rest, r, info, ctx, ni, lwt, single, n0, out, h, hcl, htc, hid, hminv, hn0 => by
    have hcl2 : cleanChild (.text t) = true ∧ cleanChildren rest = true := by
      rw [show cleanChildren (.text t :: rest) =
        (cleanChild (.text t) && cleanChildren rest) from rfl, Bool.and_eq_true] at hcl
      exact hcl
    rw [transform_children_list.eq_2] at h
    split at h
    · exact tcl_minv tc options rest r info ctx ni lwt single n0 out h hcl2.2 htc
        hid hminv hn0
    · simp only [] at h
      have hstep : AttrStep r { r with
          template := r.template ++ escape_html (trim_whitespace t) false,
          template_with_closing_tags := r.template_with_closing_tags ++
            escape_html (trim_whitespace t) false } :=
        ⟨⟨escape_html (trim_whitespace t) false, rfl,
          escape_html_clean (trim_whitespace t) false⟩, rfl, ⟨[], by simp, by simp⟩⟩
      have hminv2 := minv_attrstep r _ n0 ctx.uid hminv hstep
      split at h
      · obtain ⟨ha, hb, s2, hs2⟩ := tcl_minv tc options rest _ info ctx (ni + 1) true
          single n0 out h hcl2.2 htc (fun p hp => hid p hp) hminv2 hn0
        exact ⟨ha, hb, ⟨escape_html (trim_whitespace t) false ++ s2,
          grow_trans r.template _ _ _ s2 rfl hs2⟩⟩
      · obtain ⟨ha, hb, s2, hs2⟩ := tcl_minv tc options rest _ info ctx ni lwt
          single n0 out h hcl2.2 htc (fun p hp => hid p hp) hminv2 hn0
        exact ⟨ha, hb, ⟨escape_html (trim_whitespace t) false ++ s2,
          grow_trans r.template _ _ _ s2 rfl hs2⟩⟩
  | .element ce :: rest, r, info, ctx, ni, lwt, single, n0, out, h, hcl, htc, hid, hminv, hn0 => by
    have hcl2 : cleanChild (.element ce) = true ∧ cleanChildren rest = true := by
      rw [show cleanChildren (.element ce :: rest) =
        (cleanChild (.element ce) && cleanChildren rest) from rfl,
        Bool.and_eq_true] at hcl
      exact hcl
    have hcett : cleanTag (get_tag_name ce) = true ∧ cleanElement ce = true := by
      have := hcl2.1
      rw [show cleanChild (.element ce) =
        (cleanTag (get_tag_name ce) && cleanElement ce) from rfl,
        Bool.and_eq_true] at this
      exact this
    rw [transform_children_list.eq_3] at h
    split at h
    · split at h
      · split at h
        · exact tcl_minv tc options rest r info ctx ni false single n0 out h
            hcl2.2 htc hid hminv hn0
        · rename_i pid cres hmm1 hmm2 hcond
          simp only [] at h
          have hcode : strHasChar '$'
              (Expr.code (cres.exprs.headD ⟨""⟩)) = false :=
            htc (.element ce) cres hmm2
          split at h
          · have hminv2 := minv_insert2 r
              { r with exprs := r.exprs ++
                  [⟨"insert(" ++ pid ++ ", " ++ Expr.code (cres.exprs.headD ⟨""⟩) ++
                    ")"⟩] }
              pid (Expr.code (cres.exprs.headD ⟨""⟩)) n0 ctx.uid hminv hcode rfl rfl rfl
            obtain ⟨ha, hb, s2, hs2⟩ := tcl_minv tc options rest _ info _ ni false
              single n0 out h hcl2.2 htc (fun p hp => hid p hp)
              (by rw [register_helper_uid]; exact hminv2)
              (by rw [register_helper_uid]; omega)
            refine ⟨ha, by rw [register_helper_uid] at hb; omega, ⟨s2, hs2⟩⟩
          · rw [show generate_uid "el$" (register_helper "insert" ctx) =
              (uidName "el$" (register_helper "insert" ctx).uid,
                { register_helper "insert" ctx with
                  uid := (register_helper "insert" ctx).uid + 1 }) from rfl] at h
            simp only [] at h
            obtain ⟨k, hk⟩ := hid pid hmm1
            have hminvR : MInv r n0 (register_helper "insert" ctx).uid := by
              rw [register_helper_uid]
              exact hminv
            have hminv2 := minv_marker r
              { r with
                template := r.template ++ "<!>",
                template_with_closing_tags := r.template_with_closing_tags ++ "<!>",
                declarations := r.declarations ++
                  [⟨uidName "el$" (register_helper "insert" ctx).uid,
                    child_accessor pid ni⟩],
                exprs := r.exprs ++
                  [⟨"insert(" ++ pid ++ ", " ++ Expr.code (cres.exprs.headD ⟨""⟩) ++
                    ", " ++ uidName "el$" (register_helper "insert" ctx).uid ++ ")"⟩] }
              pid (Expr.code (cres.exprs.headD ⟨""⟩)) ni n0
              ((register_helper "insert" ctx).uid) hminvR
              (by rw [register_helper_uid]; omega)
              (by rw [hk]; exact uidName_no_dot k) rfl rfl rfl
            obtain ⟨ha, hb, s2, hs2⟩ := tcl_minv tc options rest _ info _ (ni + 1)
              false single n0 out h hcl2.2 htc (fun p hp => hid p hp)
              hminv2
              (by
                show n0 ≤ (register_helper "insert" ctx).uid + 1
                rw [register_helper_uid]
                omega)
            refine ⟨ha, ?_, ⟨"<!>" ++ s2, grow_trans r.template _ _ _ s2 rfl hs2⟩⟩
            have hb2 : (register_helper "insert" ctx).uid + 1 ≤ out.2.2.2.uid := hb
            rw [register_helper_uid] at hb2
            omega
      · exact tcl_minv tc options rest r info ctx ni false single n0 out h
          hcl2.2 htc hid hminv hn0
    · simp only [] at h
      split at h
      · cases h
      · rename_i cres ctx1 hce2
        obtain ⟨hminvc, hlec, hstartc⟩ := te_minv tc options ce (get_tag_name ce)
          { info with
            top_level := false,
            path := child_path info.path ni,
            root_id := info.root_id } ctx (cres, ctx1) hce2 hcett.1 hcett.2 htc
        have hminvm : MInv (merge_child r cres) n0 ctx1.uid :=
          minv_merge r cres n0 ctx.uid ctx1.uid hminv hminvc hn0 hlec hstartc
        have hlec2 : ctx.uid ≤ ctx1.uid := hlec
        obtain ⟨ha, hb, s2, hs2⟩ := tcl_minv tc options rest (merge_child r cres)
          info ctx1 (ni + 1) false single n0 out h hcl2.2 htc
          (fun p hp => hid p hp) hminvm (by omega)
        refine ⟨ha, by omega, ⟨cres.template ++ s2, ?_⟩⟩
        rw [hs2]
        show (r.template ++ cres.template) ++ s2 = _
        rw [String.append_assoc]
  | .expressionContainer oe :: rest, r, info, ctx, ni, lwt, single, n0, out, h, hcl, htc, hid, hminv, hn0 => by
    have hcl2 : cleanChild (.expressionContainer oe) = true ∧
        cleanChildren rest = true := by
      rw [show cleanChildren (.expressionContainer oe :: rest) =
        (cleanChild (.expressionContainer oe) && cleanChildren rest) from rfl,
        Bool.and_eq_true] at hcl
      exact hcl
    rcases hrid : r.id with _ | pid
    · rw [transform_children_list.eq_5 tc options r info ctx ni lwt single rest oe
        (by intro p e hp he; rw [hrid] at hp; cases hp)] at h
      exact tcl_minv tc options rest r info ctx ni lwt single n0 out h hcl2.2 htc
        hid hminv hn0
    · rcases oe with _ | e
      · rw [transform_children_list.eq_5 tc options r info ctx ni lwt single rest none
          (by intro p e hp he; cases he)] at h
        exact tcl_minv tc options rest r info ctx ni lwt single n0 out h hcl2.2 htc
          hid hminv hn0
      · have hdollar : strHasChar '$' (expr_to_string e) = false := by
          have := hcl2.1
          rw [show cleanChild (.expressionContainer (some e)) =
            (!strHasChar '$' (expr_to_string e)) from rfl, Bool.not_eq_true'] at this
          exact this
        have hval : strHasChar '$'
            (if is_dynamic e = true then "() => " ++ expr_to_string e
             else expr_to_string e) = false := by
          split
          · exact strHasChar_append_false '$' "() => " (expr_to_string e) rfl hdollar
          · exact hdollar
        rw [transform_children_list.eq_4 tc options r info ctx ni lwt single rest
          pid e hrid] at h
        split at h
        · simp only [] at h
          have hminv2 := minv_insert2 r
            { r with exprs := r.exprs ++
                [⟨"insert(" ++ pid ++ ", " ++
                  (if is_dynamic e = true then "() => " ++ expr_to_string e
                   else expr_to_string e) ++ ")"⟩] }
            pid (if is_dynamic e = true then "() => " ++ expr_to_string e
                 else expr_to_string e) n0 ctx.uid hminv hval rfl rfl rfl
          obtain ⟨ha, hb, s2, hs2⟩ := tcl_minv tc options rest _ info _ ni false
            single n0 out h hcl2.2 htc (fun p hp => hid p (hrid ▸ hp))
            (by rw [register_helper_uid]; exact hminv2)
            (by rw [register_helper_uid]; omega)
          refine ⟨ha, by rw [register_helper_uid] at hb; omega, ⟨s2, hs2⟩⟩
        · simp only [] at h
          rw [show generate_uid "el$" (register_helper "insert" ctx) =
            (uidName "el$" (register_helper "insert" ctx).uid,
              { register_helper "insert" ctx with
                uid := (register_helper "insert" ctx).uid + 1 }) from rfl] at h
          simp only [] at h
          obtain ⟨k, hk⟩ := hid pid hrid
          have hminvR : MInv r n0 (register_helper "insert" ctx).uid := by
            rw [register_helper_uid]
            exact hminv
          have hminv2 := minv_marker r
            { r with
              template := r.template ++ "<!>",
              template_with_closing_tags := r.template_with_closing_tags ++ "<!>",
              declarations := r.declarations ++
                [⟨uidName "el$" (register_helper "insert" ctx).uid,
                  child_accessor pid ni⟩],
              exprs := r.exprs ++
                [⟨"insert(" ++ pid ++ ", " ++
                  (if is_dynamic e = true then "() => " ++ expr_to_string e
                   else expr_to_string e) ++ ", " ++
                  uidName "el$" (register_helper "insert" ctx).uid ++ ")"⟩] }
            pid (if is_dynamic e = true then "() => " ++ expr_to_string e
                 else expr_to_string e) ni n0
            ((register_helper "insert" ctx).uid) hminvR
            (by rw [register_helper_uid]; omega)
            (by rw [hk]; exact uidName_no_dot k) rfl rfl rfl
          obtain ⟨ha, hb, s2, hs2⟩ := tcl_minv tc options rest _ info _ (ni + 1)
            false single n0 out h hcl2.2 htc (fun p hp => hid p (hrid ▸ hp))
            hminv2
            (by
              show n0 ≤ (register_helper "insert" ctx).uid + 1
              rw [register_helper_uid]
              omega)
          refine ⟨ha, ?_, ⟨"<!>" ++ s2, grow_trans r.template _ _ _ s2 rfl hs2⟩⟩
          have hb2 : (register_helper "insert" ctx).uid + 1 ≤ out.2.2.2.uid := hb
          rw [register_helper_uid] at hb2
          omega
  | .fragment fcs :: rest, r, info, ctx, ni, lwt, single, n0, out, h, hcl, htc, hid, hminv, hn0 => by
    have hcl2 : cleanChildren fcs = true ∧ cleanChildren rest = true := by
      rw [show cleanChildren (.fragment fcs :: rest) =
        (cleanChild (.fragment fcs) && cleanChildren rest) from rfl,
        Bool.and_eq_true] at hcl
      exact hcl
    rw [transform_children_list.eq_6] at h
    split at h
    · cases h
    · rename_i r1 ni1 lwt1 ctx1 hr1
      obtain ⟨ha1, hb1, s1, hs1⟩ := tcl_minv tc options fcs r info ctx ni lwt single
        n0 (r1, ni1, lwt1, ctx1) hr1 hcl2.1 htc hid hminv hn0
      have hb1b : ctx.uid ≤ ctx1.uid := hb1
      have hid1 : ∀ p, r1.id = some p → ∃ k, p = uidName "el$" k := by
        intro p hp
        rw [tcl_id tc options fcs r info ctx ni lwt single (r1, ni1, lwt1, ctx1) hr1]
          at hp
        exact hid p hp
      obtain ⟨ha, hb, s2, hs2⟩ := tcl_minv tc options rest r1 info ctx1 ni1 lwt1
        single n0 out h hcl2.2 htc hid1 ha1 (by omega)
      exact ⟨ha, by omega, ⟨s1 ++ s2, grow_trans r.template r1.template _ s1 s2 hs1 hs2⟩⟩
  | .spreadChild :: rest, r, info, ctx, ni, lwt, single, n0, out, h, hcl, htc, hid, hminv, hn0 => by
    have hcl2 : cleanChildren rest = true := by
      rw [show cleanChildren (.spreadChild :: rest) =
        (cleanChild .spreadChild && cleanChildren rest) from rfl,
        Bool.and_eq_true] at hcl
      exact hcl.2
    rw [transform_children_list.eq_7] at h
    exact tcl_minv tc options rest r info ctx ni lwt single n0 out h hcl2 htc hid
      hminv hn0
termination_by cs => sizeOf cs
end

/-! ### C5: marker correspondence -/

/-- C5 (amended): marker correspondence under well-formedness.  For a
successful lowering of an element whose tag names and attribute names avoid
the marker characters, whose foldable style objects fold to
angle-bracket-free strings, and whose serialized child expressions and
component head codes avoid `$`, the number of `<!>` occurrences in
`template` equals the number of declarations whose init expression is a
pure `firstChild`/`nextSibling` walk and that are consumed by a
three-argument `insert(...)` expression, and also equals the number of
insert expressions consuming such a declaration.  Without the
well-formedness hypotheses the correspondence is refuted by
`c5_counterexample`. -/
theorem c5_marker_correspondence (tc : JSXChild → Option TransformResult)
    (options : TransformOptions) (e : JSXElement) (tag : String)
    (info : TransformInfo) (ctx : BlockContext) (out : TransformResult × BlockContext)
    (h : transform_element tc options e tag info ctx = .ok out)
    (htag : cleanTag tag = true) (hce : cleanElement e = true) (htc : tcClean tc) :
    countM out.1.template.data = pairedDecls out.1 ∧
    pairedInserts out.1 = pairedDecls out.1 := by
  obtain ⟨hm, h1, h2⟩ := te_minv tc options e tag info ctx out h htag hce htc
  exact ⟨hm.count_eq, hm.inserts_eq⟩

/-- Counterexample to C5 as stated: `<div style={{a: "<!>"}} />` inlines the
unescaped style-object value, producing a template with one `<!>` marker
occurrence but no declaration at all. -/
theorem c5_counterexample :
    transform_element tcNone {} c5elem "div" {} {} = .ok c5out ∧
    countM c5out.1.template.data = 1 ∧ pairedDecls c5out.1 = 0 ∧
    c5out.1.declarations = [] :=
  ⟨rfl, rfl, rfl, rfl⟩

/-- Witness for `c5_marker_correspondence` at `<div><span>hi</span></div>`. -/
theorem c5_marker_correspondence_witness :
    cleanTag "div" = true ∧ cleanElement c5wit = true ∧
    (countM c5witOut.1.template.data = pairedDecls c5witOut.1 ∧
     pairedInserts c5witOut.1 = pairedDecls c5witOut.1) :=
  ⟨by decide, by decide,
    c5_marker_correspondence tcNone {} c5wit "div" {} {} c5witOut rfl (by decide)
      (by decide) (fun c res hres => Option.noConfusion hres)⟩


end Solid
